import Mathlib

/-!
Verification development for the flagtag configuration binder.

The Go source under verification is `config.go` (the later of the two
revisions it contains, whose line numbers are cited throughout).  The
collaborating standard-library routines that the binder calls
(`strconv.ParseBool/ParseInt/ParseUint/ParseFloat`, `time.ParseDuration`,
`time.Duration.String`, the `flag.*Var` registration calls) are modelled
here as executable Lean functions.  Parts of the final revision of the
binder that are documented (README, spec) and exercised by the repository
tests but whose code is not present in the source tree — interface
indirection, the `flagopt` option tag, priming a `flag.Value` with its
default — are modelled from the spec and marked as such on each definition.
-/

namespace Flagtag

/-! ## Model of strconv.ParseBool -/

/-- Model of strconv.ParseBool: accepts exactly the twelve Go boolean
literals, anything else is a syntax error. -/
def parseBool (s : String) : Except String Bool :=
  if s = "1" ∨ s = "t" ∨ s = "T" ∨ s = "TRUE" ∨ s = "true" ∨ s = "True" then .ok true
  else if s = "0" ∨ s = "f" ∨ s = "F" ∨ s = "FALSE" ∨ s = "false" ∨ s = "False" then .ok false
  else .error "invalid syntax"

/-! ## Model of strconv.ParseUint / ParseInt with base argument 0 -/

/-- Value of a digit character in the given base (0-9, a-z case-insensitive),
none when the character is not a digit of that base. -/
def digitInBase (base : Nat) (c : Char) : Option Nat :=
  let d :=
    if c.isDigit then some (c.toNat - 48)
    else if 97 ≤ c.toLower.toNat ∧ c.toLower.toNat ≤ 122 then some (c.toLower.toNat - 87)
    else none
  match d with
  | some v => if v < base then some v else none
  | none => none

/-- Base selection and prefix stripping for strconv with base argument 0:
0b/0o/0x prefixes (when followed by at least one more character), legacy
leading 0 means octal, otherwise decimal. -/
def stripBasePrefix : List Char → Nat × List Char
  | '0' :: b :: rest =>
    if b.toLower = 'b' ∧ rest ≠ [] then (2, rest)
    else if b.toLower = 'o' ∧ rest ≠ [] then (8, rest)
    else if b.toLower = 'x' ∧ rest ≠ [] then (16, rest)
    else (8, b :: rest)
  | '0' :: rest => (8, rest)
  | cs => (10, cs)

/-- Digit-accumulation loop of strconv.ParseUint.  Underscores are skipped
(and flagged, base argument 0 permits them subject to underscoreOK); any
other non-digit is a syntax error.  The accumulator is an unbounded Nat, so
the range check happens once at the end (extensionally equivalent to Go's
in-loop cutoff checks for error/ok purposes). -/
def parseDigitsAux (base : Nat) : Nat → Bool → List Char → Except String (Nat × Bool)
  | n, us, [] => .ok (n, us)
  | n, us, c :: rest =>
    if c = '_' then parseDigitsAux base n true rest
    else
      match digitInBase base c with
      | some d => parseDigitsAux base (n * base + d) us rest
      | none => .error "invalid syntax"

/-- Model of strconv's underscoreOK: underscores must be sandwiched between
base-prefix bytes and digits. -/
def underscoreOKAux (hex : Bool) : Char → List Char → Bool
  | saw, [] => saw ≠ '_'
  | saw, c :: rest =>
    if c.isDigit ∨ (hex ∧ 'a' ≤ c.toLower ∧ c.toLower ≤ 'f') then underscoreOKAux hex '0' rest
    else if c = '_' then saw = '0' && underscoreOKAux hex '_' rest
    else if saw = '_' then false
    else underscoreOKAux hex '!' rest

/-- Model of strconv's underscoreOK on a full literal (optional sign, optional
base prefix, then the digit/underscore body). -/
def underscoreOK (cs : List Char) : Bool :=
  let cs1 := match cs with
    | c :: rest => if c = '-' ∨ c = '+' then rest else c :: rest
    | [] => []
  match cs1 with
  | '0' :: b :: rest =>
    if b.toLower = 'b' ∨ b.toLower = 'o' ∨ b.toLower = 'x' then
      underscoreOKAux (b.toLower = 'x') '0' rest
    else underscoreOKAux false '^' cs1
  | _ => underscoreOKAux false '^' cs1

/-- Model of strconv.ParseUint(s, 0, bitSize): no sign allowed, base chosen
from the prefix, result must fit in bitSize bits. -/
def parseUintBase0 (s : String) (bitSize : Nat) : Except String Nat :=
  match s.data with
  | [] => .error "invalid syntax"
  | _ :: _ =>
    let (base, digits) := stripBasePrefix s.data
    match parseDigitsAux base 0 false digits with
    | .error e => .error e
    | .ok (n, us) =>
      if us ∧ ¬ underscoreOK s.data then .error "invalid syntax"
      else if n > 2 ^ bitSize - 1 then .error "value out of range"
      else .ok n

/-- Model of strconv.ParseInt(s, 0, bitSize): optional sign, then the
ParseUint body, then the signed range check. -/
def parseIntBase0 (s : String) (bitSize : Nat) : Except String Int :=
  match s.data with
  | [] => .error "invalid syntax"
  | c :: rest =>
    let neg := c = '-'
    let cs := if c = '-' ∨ c = '+' then rest else c :: rest
    match cs with
    | [] => .error "invalid syntax"
    | _ :: _ =>
      let (base, digits) := stripBasePrefix cs
      match parseDigitsAux base 0 false digits with
      | .error e => .error e
      | .ok (n, us) =>
        if us ∧ ¬ underscoreOK s.data then .error "invalid syntax"
        else if ¬ neg ∧ n ≥ 2 ^ (bitSize - 1) then .error "value out of range"
        else if neg ∧ n > 2 ^ (bitSize - 1) then .error "value out of range"
        else .ok (if neg then - (n : Int) else (n : Int))

/-! ## Model of strconv.ParseFloat (64-bit) -/

/-- Abstract float64: an exact rational for finite literals (IEEE-754
rounding of the mantissa is not modelled — no claim inspects a rounded
value), signed infinity, NaN.  Range overflow to infinity is likewise not
modelled: parsing here is the literal grammar. -/
inductive FloatVal : Type where
  | finite (q : Rat) : FloatVal
  | inf (neg : Bool) : FloatVal
  | nan : FloatVal
deriving Repr, DecidableEq

/-- m · 10^e as an exact rational. -/
def ratTimesPow10 (m : Nat) (e : Int) : Rat :=
  if 0 ≤ e then (m : Rat) * ((10 ^ e.toNat : Nat) : Rat)
  else (m : Rat) / ((10 ^ (-e).toNat : Nat) : Rat)

/-- m · 2^e as an exact rational. -/
def ratTimesPow2 (m : Nat) (e : Int) : Rat :=
  if 0 ≤ e then (m : Rat) * ((2 ^ e.toNat : Nat) : Rat)
  else (m : Rat) / ((2 ^ (-e).toNat : Nat) : Rat)

/-- Mantissa scan of strconv's readFloat: digits in the given base with at
most one dot and optional underscores.  Returns the accumulated mantissa,
the number of fractional digits, the total number of digits, whether an
underscore was seen, and the unconsumed remainder. -/
def mantissaAux (base : Nat) : Nat → Nat → Nat → Bool → Bool → List Char →
    Nat × Nat × Nat × Bool × List Char
  | m, frac, nd, _, us, [] => (m, frac, nd, us, [])
  | m, frac, nd, sawdot, us, c :: rest =>
    match digitInBase base c with
    | some d => mantissaAux base (base * m + d) (if sawdot then frac + 1 else frac) (nd + 1) sawdot us rest
    | none =>
      if c = '_' then mantissaAux base m frac nd sawdot true rest
      else if c = '.' ∧ sawdot = false then mantissaAux base m frac nd true us rest
      else (m, frac, nd, us, c :: rest)

/-- Exponent scan: e/E (or p/P for hex) already consumed; optional sign then
at least one decimal digit (underscores permitted).  Returns the exponent,
whether an underscore was seen, and fails on an empty digit string. -/
def exponentAux (cs : List Char) : Except String (Int × Bool) :=
  let (neg, body) := match cs with
    | '-' :: r => (true, r)
    | '+' :: r => (false, r)
    | r => (false, r)
  match parseDigitsAux 10 0 false body with
  | .error e => .error e
  | .ok (n, us) =>
    match body with
    | [] => .error "invalid syntax"
    | _ :: _ => .ok (if neg then - (n : Int) else (n : Int), us)

/-- Model of strconv.ParseFloat(s, 64) at the grammar level: special values
inf/infinity (optionally signed) and nan, decimal literals with optional
fraction and e-exponent, hex literals with mandatory p-exponent. -/
def parseFloatGo (s : String) : Except String FloatVal :=
  let cs := s.data
  match cs with
  | [] => .error "invalid syntax"
  | _ :: _ =>
    let lower := cs.map Char.toLower
    let (negS, bodyLower) := match lower with
      | '-' :: r => (true, r)
      | '+' :: r => (false, r)
      | r => (false, r)
    if bodyLower = "inf".data ∨ bodyLower = "infinity".data then .ok (.inf negS)
    else if lower = "nan".data then .ok .nan
    else
      let (neg, body) := match cs with
        | '-' :: r => (true, r)
        | '+' :: r => (false, r)
        | r => (false, r)
      let signRat : Rat → Rat := fun q => if neg then -q else q
      match body with
      | '0' :: x :: hrest =>
        if x.toLower = 'x' then
          let (m, frac, nd, us1, rest) := mantissaAux 16 0 0 0 false false hrest
          if nd = 0 then .error "invalid syntax"
          else
            match rest with
            | p :: prest =>
              if p.toLower = 'p' then
                match exponentAux prest with
                | .error e => .error e
                | .ok (e, us2) =>
                  if (us1 ∨ us2) ∧ ¬ underscoreOK cs then .error "invalid syntax"
                  else .ok (.finite (signRat (ratTimesPow2 m (e - 4 * (frac : Int)))))
              else .error "invalid syntax"
            | [] => .error "invalid syntax"
        else
          let (m, frac, nd, us1, rest) := mantissaAux 10 0 0 0 false false body
          if nd = 0 then .error "invalid syntax"
          else
            match rest with
            | [] =>
              if us1 ∧ ¬ underscoreOK cs then .error "invalid syntax"
              else .ok (.finite (signRat (ratTimesPow10 m (- (frac : Int)))))
            | e :: erest =>
              if e.toLower = 'e' then
                match exponentAux erest with
                | .error er => .error er
                | .ok (ex, us2) =>
                  if (us1 ∨ us2) ∧ ¬ underscoreOK cs then .error "invalid syntax"
                  else .ok (.finite (signRat (ratTimesPow10 m (ex - (frac : Int)))))
              else .error "invalid syntax"
      | _ =>
        let (m, frac, nd, us1, rest) := mantissaAux 10 0 0 0 false false body
        if nd = 0 then .error "invalid syntax"
        else
          match rest with
          | [] =>
            if us1 ∧ ¬ underscoreOK cs then .error "invalid syntax"
            else .ok (.finite (signRat (ratTimesPow10 m (- (frac : Int)))))
          | e :: erest =>
            if e.toLower = 'e' then
              match exponentAux erest with
              | .error er => .error er
              | .ok (ex, us2) =>
                if (us1 ∨ us2) ∧ ¬ underscoreOK cs then .error "invalid syntax"
                else .ok (.finite (signRat (ratTimesPow10 m (ex - (frac : Int)))))
            else .error "invalid syntax"

/-! ## Model of time.ParseDuration and time.Duration.String -/

/-- Nanoseconds per duration unit (time's unitMap). -/
def nsPerUnit (u : List Char) : Option Nat :=
  if u = "ns".data then some 1
  else if u = "us".data ∨ u = "µs".data ∨ u = "μs".data then some 1000
  else if u = "ms".data then some 1000000
  else if u = "s".data then some 1000000000
  else if u = "m".data then some 60000000000
  else if u = "h".data then some 3600000000000
  else none

/-- leadingInt of time.ParseDuration: consume decimal digits. -/
def leadingIntAux : Nat → List Char → Nat × List Char
  | n, [] => (n, [])
  | n, c :: rest =>
    if c.isDigit then leadingIntAux (10 * n + (c.toNat - 48)) rest else (n, c :: rest)

/-- leadingFraction of time.ParseDuration: digits after the dot together with
their power-of-ten scale.  (Go caps accumulation once it would overflow an
int64, silently ignoring further digits; the unbounded accumulator here
diverges from that only beyond 19 fractional digits.) -/
def leadingFractionAux : Nat → Nat → List Char → Nat × Nat × List Char
  | f, scale, [] => (f, scale, [])
  | f, scale, c :: rest =>
    if c.isDigit then leadingFractionAux (10 * f + (c.toNat - 48)) (scale * 10) rest
    else (f, scale, c :: rest)

/-- One-or-more component loop of time.ParseDuration, fuelled by the input
length (every iteration consumes at least one character, so the fuel never
runs out on the initial call).  Each component is integer part, optional
fraction, mandatory known unit; Go computes the fractional contribution in
float64, modelled here as the floor of the exact product. -/
def parseDurationAux (fuel : Nat) (acc : Nat) (cs : List Char) : Except String Nat :=
  match fuel with
  | 0 => .error "invalid duration"
  | fuel + 1 =>
    match cs with
    | [] => .ok acc
    | c :: cs0 =>
      if decide (c.isDigit ∨ c = '.') = false then .error "invalid duration"
      else
        let p1 := leadingIntAux 0 (c :: cs0)
        let v := p1.1
        let rest1 := p1.2
        let pre : Bool := rest1.length ≠ (c :: cs0).length
        let p2 : Nat × Nat × List Char × Bool :=
          match rest1 with
          | '.' :: frest =>
            let p := leadingFractionAux 0 1 frest
            (p.1, p.2.1, p.2.2, decide (p.2.2.length ≠ frest.length))
          | r => (0, 1, r, false)
        let f := p2.1
        let scale := p2.2.1
        let rest2 := p2.2.2.1
        let post := p2.2.2.2
        if pre = false ∧ post = false then .error "invalid duration"
        else
          let unit := rest2.takeWhile (fun ch => decide (ch.isDigit ∨ ch = '.') = false)
          let rest3 := rest2.dropWhile (fun ch => decide (ch.isDigit ∨ ch = '.') = false)
          if unit = [] then .error "missing unit in duration"
          else
            match nsPerUnit unit with
            | none => .error "unknown unit in duration"
            | some u =>
              if v > 2 ^ 63 / u then .error "invalid duration: out of range"
              else
                let contrib := v * u + f * u / scale
                if contrib > 2 ^ 63 then .error "invalid duration: out of range"
                else if acc + contrib > 2 ^ 63 then .error "invalid duration: out of range"
                else parseDurationAux fuel (acc + contrib) rest3

/-- Model of time.ParseDuration: optional sign, the special case "0", then
the component loop; the magnitude must fit a 64-bit signed duration. -/
def parseDuration (s : String) : Except String Int :=
  let cs := s.data
  let (neg, cs1) := match cs with
    | '-' :: r => (true, r)
    | '+' :: r => (false, r)
    | r => (false, r)
  if cs1 = ['0'] then .ok 0
  else
    match cs1 with
    | [] => .error "invalid duration"
    | _ :: _ =>
      match parseDurationAux (cs1.length + 1) 0 cs1 with
      | .error e => .error e
      | .ok d =>
        if neg then .ok (- (d : Int))
        else if d > 2 ^ 63 - 1 then .error "invalid duration: out of range"
        else .ok (d : Int)

/-- Left-pad a digit string with zeros to the given width. -/
def padZeros (s : List Char) (n : Nat) : List Char :=
  List.replicate (n - s.length) '0' ++ s

/-- Drop trailing zero characters. -/
def trimTrailingZeros (s : List Char) : List Char :=
  (s.reverse.dropWhile (fun c => c = '0')).reverse

/-- fmtFrac of time.Duration.String: the fraction made of the low prec
decimal digits of v with trailing zeros (and, when zero, the dot itself)
omitted, together with the remaining high digits. -/
def fmtFrac (v : Nat) (prec : Nat) : String × Nat :=
  let rest := v / 10 ^ prec
  let frac := v % 10 ^ prec
  if frac = 0 then ("", rest)
  else (String.mk ('.' :: trimTrailingZeros (padZeros (Nat.toDigits 10 frac) prec)), rest)

/-- Model of time.Duration.String: canonical rendering such as "1h0m0s",
sub-second values printed in ns/µs/ms, zero printed as "0s". -/
def durationString (d : Int) : String :=
  let u := d.natAbs
  let core :=
    if u < 1000000000 then
      if u = 0 then "0s"
      else if u < 1000 then toString u ++ "ns"
      else if u < 1000000 then
        let (fr, w) := fmtFrac u 3
        toString w ++ fr ++ "µs"
      else
        let (fr, w) := fmtFrac u 6
        toString w ++ fr ++ "ms"
    else
      let (fr, secs) := fmtFrac u 9
      let sPart := toString (secs % 60) ++ fr ++ "s"
      let mins := secs / 60
      if mins = 0 then sPart
      else
        let mPart := toString (mins % 60) ++ "m" ++ sPart
        let hrs := mins / 60
        if hrs = 0 then mPart else toString hrs ++ "h" ++ mPart
  if d < 0 then "-" ++ core else core

/-! ## Data model: Go values and struct fields as seen through reflect

The binder observes a field through reflection: its structural kind, whether
its type is exactly time.Duration, and whether a pointer to it implements
flag.Value.  A named type derived from a primitive differs from the
primitive only in its name (and possibly added methods), which is recorded
but never inspected by primitive dispatch. -/

/-- The structural kinds the binder distinguishes.  kOther stands for every
remaining non-nilable kind (uintptr, int8, complex, ...), none of which the
kind switch supports. -/
inductive PrimKind : Type where
  | kString | kBool | kFloat64 | kInt | kInt64 | kUint | kUint64 | kOther
deriving Repr, DecidableEq

/-- A primitive (non-struct, non-pointer, non-interface) value. -/
inductive PrimVal : Type where
  | vs (v : String) : PrimVal
  | vb (v : Bool) : PrimVal
  | vf (v : FloatVal) : PrimVal
  | vi (v : Int) : PrimVal
  | vu (v : Nat) : PrimVal
deriving Repr, DecidableEq

/-- The two-operation flag.Value capability of a type whose pointer
implements the interface: Set parses text into a new value or fails, String
renders the current value. -/
structure FlagValueImpl : Type where
  set : String → Except String PrimVal
  render : PrimVal → String

/-- A non-composite Go type as the binder observes it: its name (never
inspected by dispatch), its structural kind, whether it is exactly
time.Duration, and the flag.Value capability when the pointer type
implements it. -/
structure PrimType : Type where
  name : String
  kind : PrimKind
  isDuration : Bool
  flagValue : Option FlagValueImpl

mutual
/-- A Go value of the shapes the binder can encounter: a primitive-typed
value, a (possibly nil) pointer, a (possibly nil) interface, or a struct. -/
inductive GoValue : Type where
  | prim (t : PrimType) (v : PrimVal) : GoValue
  | ptr (elem : Option GoValue) : GoValue
  | iface (contents : Option GoValue) : GoValue
  | strct (fields : List GoField) : GoValue

/-- One declared struct field: Go field name, raw value of the flag tag
("" when absent), raw value of the flagopt tag, whether the field is
exported, and its current value. -/
inductive GoField : Type where
  | mk (name : String) (flagTag : String) (flagOpt : String) (exported : Bool)
      (value : GoValue) : GoField
end

def GoField.name : GoField → String
  | .mk n _ _ _ _ => n

def GoField.flagTag : GoField → String
  | .mk _ t _ _ _ => t

def GoField.flagOpt : GoField → String
  | .mk _ _ o _ _ => o

def GoField.exported : GoField → Bool
  | .mk _ _ _ e _ => e

def GoField.value : GoField → GoValue
  | .mk _ _ _ _ v => v

/-! ## Tag parsing -/

/-- The parsed flag tag (config.go flagTag struct) extended with the parsed
option flag from the flagopt tag. -/
structure FlagTag : Type where
  Name : String
  DefaultValue : String
  Description : String
  SkipFlagValue : Bool
deriving Repr, DecidableEq

/-- Break a character list at the first comma: the part before it and the
part after it, or none when there is no comma. -/
def breakAtComma : List Char → Option (List Char × List Char)
  | [] => none
  | c :: rest =>
    if c = ',' then some ([], rest)
    else
      match breakAtComma rest with
      | none => none
      | some (pre, post) => some (c :: pre, post)

/-- Model of strings.SplitN(s, ",", n) for n ≥ 1: split around the first
n-1 commas, the last part keeps the remaining commas. -/
def splitNComma : Nat → List Char → List (List Char)
  | 0, _ => []
  | 1, cs => [cs]
  | n + 2, cs =>
    match breakAtComma cs with
    | none => [cs]
    | some (pre, post) => pre :: splitNComma (n + 1) post

/-- Model of strings.Split(s, ","): split around every comma. -/
def splitAllComma : List Char → List (List Char)
  | [] => [[]]
  | c :: rest =>
    let r := splitAllComma rest
    if c = ',' then [] :: r
    else
      match r with
      | [] => [[c]]
      | h :: t => (c :: h) :: t

/-- Translated from config.go parseTag (lines 379-385): SplitN on the first
two commas, missing trailing parts padded with the empty string.  The
SkipFlagValue option flag is Modelled from the spec: §4.3 — the final
revision scans the flagopt tag, a comma-delimited token list, for the
literal token skipFlagValue, ignoring unknown tokens; that revision's code
is not under src/ (only the README documenting it is). -/
def parseTag (value : String) (optValue : String) : FlagTag :=
  let parts := (splitNComma 3 value.data).map String.mk
  let parts := parts ++ List.replicate (3 - parts.length) ""
  { Name := parts.getD 0 "", DefaultValue := parts.getD 1 "", Description := parts.getD 2 "",
    SkipFlagValue := decide ("skipFlagValue".data ∈ splitAllComma optValue.data) }

/-! ## Errors, the registry, and registration -/

/-- The error taxonomy of the binder (spec §7), as produced by the source's
fmt.Errorf calls, carrying the Go field name and the option name where the
source messages do. -/
inductive ConfigError : Type where
  | nilConfig : ConfigError
  | nilPointer : ConfigError
  | notAStruct : ConfigError
  | invalidFlagName (field : String) : ConfigError
  | nilPointerTarget (field tagName : String) : ConfigError
  | nilInterface (field tagName : String) : ConfigError
  | nilInterfaceValue (field tagName : String) : ConfigError
  | unaddressableField (field tagName : String) : ConfigError
  | invalidDefault (field tagName cause : String) : ConfigError
  | unsupportedType (field tagName : String) : ConfigError
deriving Repr, DecidableEq

/-- One entry of the process-global flag registry as flag.Lookup exposes it:
option name, textual default (Value.String() of the default at registration
time), usage text. -/
structure FlagReg : Type where
  name : String
  defValue : String
  usage : String
deriving Repr, DecidableEq

/-- Registry text of a bool default (Value.String of a boolValue). -/
def boolString (b : Bool) : String :=
  if b then "true" else "false"

/-- Registry text of a float64 default.  Go renders it with
strconv.FormatFloat(f, 'g', -1, 64) (shortest round-trip); that formatter
is not reproduced — no claim inspects this text — so the exact rational is
shown instead. -/
def floatRender : FloatVal → String
  | .finite q => toString q.num ++ "/" ++ toString q.den
  | .inf true => "-Inf"
  | .inf false => "+Inf"
  | .nan => "NaN"

/-- The indirection (if any) that was removed between the declared field
and the leaf value registration works on, so the mutated leaf can be
written back through it. -/
inductive IndirPath : Type where
  | direct | viaPtr | viaIfaceValue | viaIfacePtr
deriving Repr, DecidableEq

/-- Write the mutated leaf back through the removed indirection. -/
def rebuildIndir : IndirPath → GoValue → GoValue
  | .direct, v => v
  | .viaPtr, v => .ptr (some v)
  | .viaIfaceValue, v => .iface (some v)
  | .viaIfacePtr, v => .iface (some (.ptr (some v)))

/-- Indirection resolution for a tagged field.  The pointer case is
translated from config.go (configure, lines 259-266): a nil pointer fails,
otherwise the field is redirected to the pointee.  The interface cases are
Modelled from the spec: §4.2 step 2b — the final revision resolving
interface fields is not under src/ (only its tests are): a nil interface
fails, an interface holding a nil pointer (or nil interface) fails, an
interface holding a non-nil pointer redirects to the pointee (addressable
through the pointer), and an interface holding a non-pointer concrete
value redirects to that value, which is not addressable.  The returned
Bool is the CanSet status of the leaf: reading an unexported field yields
a read-only value, and read-only propagates through Elem. -/
def resolveIndirection (fieldName tagName : String) (exported : Bool) (v : GoValue) :
    Except ConfigError (GoValue × IndirPath × Bool) :=
  match v with
  | .ptr none => .error (.nilPointerTarget fieldName tagName)
  | .ptr (some inner) => .ok (inner, .viaPtr, exported)
  | .iface none => .error (.nilInterface fieldName tagName)
  | .iface (some (.ptr none)) => .error (.nilInterfaceValue fieldName tagName)
  | .iface (some (.iface none)) => .error (.nilInterfaceValue fieldName tagName)
  | .iface (some (.ptr (some inner))) => .ok (inner, .viaIfacePtr, exported)
  | .iface (some inner) => .ok (inner, .viaIfaceValue, false)
  | other => .ok (other, .direct, exported)

/-- Self-describing registration.  Modelled from the spec: §4.4 and the
README — the final revision, not under src/, registers a field whose
pointer type implements flag.Value via flag.Var and, when the tag's
default is non-empty, immediately calls Set with the default and
propagates its error; src/config.go lines 285-293 hold an earlier revision
without the priming call.  Returns none when the type does not implement
flag.Value: no state and no registry mutation.  flag.Var runs before the
priming Set, so a failed prime leaves the flag registered, and the
registry default text is the value's rendering at registration time. -/
def registerFlagByValueInterface (fieldName : String) (leaf : GoValue) (tag : FlagTag)
    (regs : List FlagReg) : Option (List FlagReg × Except ConfigError GoValue) :=
  match leaf with
  | .prim t v =>
    match t.flagValue with
    | some impl =>
      let regs2 := regs ++ [{ name := tag.Name, defValue := impl.render v, usage := tag.Description }]
      if tag.DefaultValue = "" then some (regs2, .ok (.prim t v))
      else
        match impl.set tag.DefaultValue with
        | .ok v2 => some (regs2, .ok (.prim t v2))
        | .error cause => some (regs2, .error (.invalidDefault fieldName tag.Name cause))
    | none => none
  | _ => none

/-- Translated from config.go registerFlagByPrimitive (lines 300-359):
the time.Duration special case first (an exact-type check, taken even
though the kind is int64), then the kind switch.  Each flag.TVar call
registers the option and immediately writes the parsed default through the
field's address, modelled by returning the updated leaf value.  int and
uint use fieldType.Bits() = 64, the modelled platform width. -/
def registerFlagByPrimitive (fieldName : String) (leaf : GoValue) (tag : FlagTag)
    (regs : List FlagReg) : List FlagReg × Except ConfigError GoValue :=
  match leaf with
  | .prim t _ =>
    if t.isDuration then
      match parseDuration tag.DefaultValue with
      | .error cause => (regs, .error (.invalidDefault fieldName tag.Name cause))
      | .ok d =>
        (regs ++ [{ name := tag.Name, defValue := durationString d, usage := tag.Description }],
         .ok (.prim t (.vi d)))
    else
      match t.kind with
      | .kString =>
        (regs ++ [{ name := tag.Name, defValue := tag.DefaultValue, usage := tag.Description }],
         .ok (.prim t (.vs tag.DefaultValue)))
      | .kBool =>
        match parseBool tag.DefaultValue with
        | .error cause => (regs, .error (.invalidDefault fieldName tag.Name cause))
        | .ok b =>
          (regs ++ [{ name := tag.Name, defValue := boolString b, usage := tag.Description }],
           .ok (.prim t (.vb b)))
      | .kFloat64 =>
        match parseFloatGo tag.DefaultValue with
        | .error cause => (regs, .error (.invalidDefault fieldName tag.Name cause))
        | .ok f =>
          (regs ++ [{ name := tag.Name, defValue := floatRender f, usage := tag.Description }],
           .ok (.prim t (.vf f)))
      | .kInt =>
        match parseIntBase0 tag.DefaultValue 64 with
        | .error cause => (regs, .error (.invalidDefault fieldName tag.Name cause))
        | .ok n =>
          (regs ++ [{ name := tag.Name, defValue := toString n, usage := tag.Description }],
           .ok (.prim t (.vi n)))
      | .kInt64 =>
        match parseIntBase0 tag.DefaultValue 64 with
        | .error cause => (regs, .error (.invalidDefault fieldName tag.Name cause))
        | .ok n =>
          (regs ++ [{ name := tag.Name, defValue := toString n, usage := tag.Description }],
           .ok (.prim t (.vi n)))
      | .kUint =>
        match parseUintBase0 tag.DefaultValue 64 with
        | .error cause => (regs, .error (.invalidDefault fieldName tag.Name cause))
        | .ok n =>
          (regs ++ [{ name := tag.Name, defValue := toString n, usage := tag.Description }],
           .ok (.prim t (.vu n)))
      | .kUint64 =>
        match parseUintBase0 tag.DefaultValue 64 with
        | .error cause => (regs, .error (.invalidDefault fieldName tag.Name cause))
        | .ok n =>
          (regs ++ [{ name := tag.Name, defValue := toString n, usage := tag.Description }],
           .ok (.prim t (.vu n)))
      | .kOther => (regs, .error (.unsupportedType fieldName tag.Name))
  | _ => (regs, .error (.unsupportedType fieldName tag.Name))

/-! ## The recursive walk -/

mutual
/-- Translated from config.go configure (lines 237-281): fields in
declaration order, the registry threaded through; the first field error
aborts the walk, keeping the registry as it stands.  On success the
updated field list is returned (the source mutates the caller's struct in
place). -/
def configureFields : List GoField → List FlagReg → List FlagReg × Except ConfigError (List GoField)
  | [], regs => (regs, .ok [])
  | f :: rest, regs =>
    match processField f regs with
    | (regs2, .error e) => (regs2, .error e)
    | (regs2, .ok f2) =>
      match configureFields rest regs2 with
      | (regs3, .error e) => (regs3, .error e)
      | (regs3, .ok rest2) => (regs3, .ok (f2 :: rest2))

/-- One field of the walk (the loop body of config.go configure): an
untagged struct field is recursed into, any other untagged field is
skipped; a tagged field goes through tag validation, indirection
resolution, the CanSet check, then — unless the skipFlagValue option is
set (Modelled from the spec: §4.2 step 2d) — self-describing registration,
falling back to primitive registration. -/
def processField : GoField → List FlagReg → List FlagReg × Except ConfigError GoField
  | .mk n tagStr optStr ex v, regs =>
    if tagStr = "" then
      match v with
      | .strct inner =>
        match configureFields inner regs with
        | (regs2, .error e) => (regs2, .error e)
        | (regs2, .ok inner2) => (regs2, .ok (.mk n tagStr optStr ex (.strct inner2)))
      | other => (regs, .ok (.mk n tagStr optStr ex other))
    else
      let tag := parseTag tagStr optStr
      if tag.Name = "" then (regs, .error (.invalidFlagName n))
      else
        match resolveIndirection n tag.Name ex v with
        | .error e => (regs, .error e)
        | .ok (leaf, path, settable) =>
          if settable = false then (regs, .error (.unaddressableField n tag.Name))
          else
            match (if tag.SkipFlagValue then none else registerFlagByValueInterface n leaf tag regs) with
            | some (regs2, .error e) => (regs2, .error e)
            | some (regs2, .ok leaf2) => (regs2, .ok (.mk n tagStr optStr ex (rebuildIndir path leaf2)))
            | none =>
              match registerFlagByPrimitive n leaf tag regs with
              | (regs2, .error e) => (regs2, .error e)
              | (regs2, .ok leaf2) => (regs2, .ok (.mk n tagStr optStr ex (rebuildIndir path leaf2)))
end

/-! ## Concrete types appearing in the repository and its tests -/

/-- Model of strconv.Atoi (ParseInt with base 10, no prefixes, no
underscores), used by the repository's dummyInt flag.Value implementation. -/
def atoi (s : String) : Except String Int :=
  match s.data with
  | [] => .error "invalid syntax"
  | c :: rest =>
    let neg := c = '-'
    let ds := if c = '-' ∨ c = '+' then rest else c :: rest
    match ds with
    | [] => .error "invalid syntax"
    | _ :: _ =>
      if ds.all Char.isDigit then
        let n : Nat := ds.foldl (fun a ch => 10 * a + (ch.toNat - 48)) 0
        if ¬ neg ∧ n ≥ 2 ^ 63 then .error "value out of range"
        else if neg ∧ n > 2 ^ 63 then .error "value out of range"
        else .ok (if neg then - (n : Int) else (n : Int))
      else .error "invalid syntax"

/-- The repository test type dummyInt: an int-kind named type whose pointer
implements flag.Value, with Set = strconv.Atoi and String = strconv.Itoa.
(render is total over PrimVal; a dummyInt only ever holds a vi value.) -/
def dummyIntImpl : FlagValueImpl :=
  { set := fun s =>
      match atoi s with
      | .ok n => .ok (.vi n)
      | .error e => .error e,
    render := fun v =>
      match v with
      | .vi n => toString n
      | _ => "0" }

def stringT : PrimType := { name := "string", kind := .kString, isDuration := false, flagValue := none }

def boolT : PrimType := { name := "bool", kind := .kBool, isDuration := false, flagValue := none }

def float64T : PrimType := { name := "float64", kind := .kFloat64, isDuration := false, flagValue := none }

def intT : PrimType := { name := "int", kind := .kInt, isDuration := false, flagValue := none }

def int64T : PrimType := { name := "int64", kind := .kInt64, isDuration := false, flagValue := none }

def uintT : PrimType := { name := "uint", kind := .kUint, isDuration := false, flagValue := none }

def uint64T : PrimType := { name := "uint64", kind := .kUint64, isDuration := false, flagValue := none }

/-- time.Duration: kind int64, exact type time.Duration. -/
def durationT : PrimType := { name := "time.Duration", kind := .kInt64, isDuration := true, flagValue := none }

/-- uintptr: a kind outside the supported switch cases. -/
def uintptrT : PrimType := { name := "uintptr", kind := .kOther, isDuration := false, flagValue := none }

/-- The repository test type aliasInt (type aliasInt int): int kind under a
different name, no added methods. -/
def aliasIntT : PrimType := { name := "aliasInt", kind := .kInt, isDuration := false, flagValue := none }

/-- The repository test type dummyInt as a PrimType. -/
def dummyIntT : PrimType := { name := "dummyInt", kind := .kInt, isDuration := false, flagValue := some dummyIntImpl }

/-! ## Top-level validation and entry point -/

/-- Outcome of a call that may return normally, return an error, or panic
(reflect.Value.IsNil panics when called on a non-nilable kind). -/
inductive GoResult (α : Type) : Type where
  | ok (a : α) : GoResult α
  | err (e : ConfigError) : GoResult α
  | panicked (msg : String) : GoResult α

/-- Kind name used in the reflect.Value.IsNil panic message.  kOther is the
name of its representative kind uintptr. -/
def kindNameForPanic : GoValue → String
  | .prim t _ =>
    match t.kind with
    | .kString => "string"
    | .kBool => "bool"
    | .kFloat64 => "float64"
    | .kInt => "int"
    | .kInt64 => "int64"
    | .kUint => "uint"
    | .kUint64 => "uint64"
    | .kOther => "uintptr"
  | .strct _ => "struct"
  | .ptr _ => "ptr"
  | .iface _ => "interface"

/-- Translated from config.go getStructValue (lines 362-376): nil config
fails, a nil pointer fails, reflect.Indirect removes exactly one pointer
layer, and a non-struct result fails.  reflect.ValueOf(config).IsNil()
panics for every non-nilable kind (struct, string, numerics), modelled as
GoResult.panicked.  A top-level interface argument is flattened, since Go
interfaces never nest. -/
def getStructValueV : GoValue → GoResult (List GoField)
  | .iface none => .err .nilConfig
  | .iface (some v) => getStructValueV v
  | .ptr none => .err .nilPointer
  | .ptr (some inner) =>
    match inner with
    | .strct fields => .ok fields
    | _ => .err .notAStruct
  | v => .panicked ("reflect: call of reflect.Value.IsNil on " ++ kindNameForPanic v ++ " Value")

/-- Entry of getStructValue: a nil argument fails, otherwise the contained
value is validated. -/
def getStructValue : Option GoValue → GoResult (List GoField)
  | none => .err .nilConfig
  | some v => getStructValueV v

/-- Translated from config.go Configure (lines 224-230), with the
process-global flag registry threaded explicitly: validate the argument,
then walk the struct.  The registry survives an aborted walk. -/
def Configure (config : Option GoValue) (regs : List FlagReg) :
    List FlagReg × GoResult GoValue :=
  match getStructValue config with
  | .err e => (regs, .err e)
  | .panicked m => (regs, .panicked m)
  | .ok fields =>
    match configureFields fields regs with
    | (regs2, .error e) => (regs2, .err e)
    | (regs2, .ok fields2) => (regs2, .ok (.strct fields2))

/-! ## Helper predicates and lemmas -/

/-- Whether a value is a struct. -/
def isStructV : GoValue → Bool
  | .strct _ => true
  | _ => false

mutual
/-- No flag tag anywhere inside the value (recursively through structs). -/
def untaggedValue : GoValue → Bool
  | .strct fs => untaggedFieldsAll fs
  | _ => true

/-- Every field carries no flag tag, recursively. -/
def untaggedFieldsAll : List GoField → Bool
  | [] => true
  | .mk _ tagStr _ _ v :: rest => tagStr == "" && untaggedValue v && untaggedFieldsAll rest
end

/-- A walk over fields with no flag tags anywhere registers nothing, changes
nothing and succeeds. -/
theorem untaggedOk : ∀ (fs : List GoField) (regs : List FlagReg),
    untaggedFieldsAll fs = true → configureFields fs regs = (regs, Except.ok fs)
  | [], regs, _ => by simp [configureFields]
  | .mk n tagStr optStr ex (GoValue.strct inner) :: rest, regs, h => by
    simp only [untaggedFieldsAll, untaggedValue, Bool.and_eq_true, beq_iff_eq] at h
    obtain ⟨⟨htag, hval⟩, hrest⟩ := h
    subst htag
    have hr := untaggedOk rest regs hrest
    have h1 := untaggedOk inner regs hval
    simp [configureFields, processField, h1, hr]
  | .mk n tagStr optStr ex (GoValue.prim t pv) :: rest, regs, h => by
    simp only [untaggedFieldsAll, Bool.and_eq_true, beq_iff_eq] at h
    obtain ⟨⟨htag, _⟩, hrest⟩ := h
    subst htag
    have hr := untaggedOk rest regs hrest
    simp [configureFields, processField, hr]
  | .mk n tagStr optStr ex (GoValue.ptr e) :: rest, regs, h => by
    simp only [untaggedFieldsAll, Bool.and_eq_true, beq_iff_eq] at h
    obtain ⟨⟨htag, _⟩, hrest⟩ := h
    subst htag
    have hr := untaggedOk rest regs hrest
    simp [configureFields, processField, hr]
  | .mk n tagStr optStr ex (GoValue.iface c) :: rest, regs, h => by
    simp only [untaggedFieldsAll, Bool.and_eq_true, beq_iff_eq] at h
    obtain ⟨⟨htag, _⟩, hrest⟩ := h
    subst htag
    have hr := untaggedOk rest regs hrest
    simp [configureFields, processField, hr]
termination_by fs => sizeOf fs

/-- Primitive registration only appends to the registry. -/
theorem registerFlagByPrimitiveRegsGrow (fname : String) (leaf : GoValue) (tag : FlagTag)
    (regs : List FlagReg) : ∃ add, (registerFlagByPrimitive fname leaf tag regs).1 = regs ++ add := by
  unfold registerFlagByPrimitive
  repeat' split
  all_goals first
    | exact ⟨_, rfl⟩
    | (refine ⟨[], ?_⟩; simp)

/-- Self-describing registration only appends to the registry. -/
theorem registerFlagByValueInterfaceRegsGrow (fname : String) (leaf : GoValue) (tag : FlagTag)
    (regs regs2 : List FlagReg) (res : Except ConfigError GoValue)
    (h : registerFlagByValueInterface fname leaf tag regs = some (regs2, res)) :
    ∃ add, regs2 = regs ++ add := by
  unfold registerFlagByValueInterface at h
  repeat' split at h
  all_goals simp_all
  all_goals exact ⟨_, h.1.symm⟩

/-- The combined skip-or-self-describing step only yields a registry that
extends the input registry. -/
theorem skipOrValueGrow (b : Bool) (fname : String) (leaf : GoValue) (tag : FlagTag)
    (regs regs2 : List FlagReg) (res : Except ConfigError GoValue)
    (h : (if b = true then none else registerFlagByValueInterface fname leaf tag regs) =
      some (regs2, res)) : ∃ add, regs2 = regs ++ add := by
  by_cases hb : b = true
  · simp [hb] at h
  · rw [if_neg hb] at h
    exact registerFlagByValueInterfaceRegsGrow fname leaf tag regs regs2 res h

mutual

/-- Processing one field only appends to the registry. -/
theorem processFieldRegsGrow : ∀ (f : GoField) (regs : List FlagReg),
    ∃ add, (processField f regs).1 = regs ++ add
  | .mk n tagStr optStr ex v, regs => by
    unfold processField
    by_cases htag : tagStr = ""
    · simp only [htag, if_true]
      match v with
      | GoValue.strct inner =>
        obtain ⟨add, ha⟩ := configureFieldsRegsGrow inner regs
        match hc : configureFields inner regs with
        | (r2, .error e) => exact ⟨add, by simpa [hc] using ha⟩
        | (r2, .ok inner2) => exact ⟨add, by simpa [hc] using ha⟩
      | GoValue.prim t pv => exact ⟨[], by simp⟩
      | GoValue.ptr e => exact ⟨[], by simp⟩
      | GoValue.iface c => exact ⟨[], by simp⟩
    · simp only [htag, if_false]
      split
      · exact ⟨[], by simp⟩
      · split
        · exact ⟨[], by simp⟩
        · split
          · exact ⟨[], by simp⟩
          · split
            · next regs2 e hv => exact skipOrValueGrow _ _ _ _ _ _ _ hv
            · next regs2 leaf2 hv => exact skipOrValueGrow _ _ _ _ _ _ _ hv
            · next hv =>
              obtain ⟨add, ha⟩ := registerFlagByPrimitiveRegsGrow n _ (parseTag tagStr optStr) regs
              split
              · next hp => exact ⟨add, by rw [hp] at ha; exact ha⟩
              · next hp => exact ⟨add, by rw [hp] at ha; exact ha⟩
termination_by f _ => sizeOf f

/-- The walk only appends to the registry. -/
theorem configureFieldsRegsGrow : ∀ (fs : List GoField) (regs : List FlagReg),
    ∃ add, (configureFields fs regs).1 = regs ++ add
  | [], regs => ⟨[], by simp [configureFields]⟩
  | f :: rest, regs => by
    obtain ⟨a1, h1⟩ := processFieldRegsGrow f regs
    match hp : processField f regs with
    | (r2, .error e) =>
      rw [hp] at h1
      exact ⟨a1, by simp only [configureFields, hp]; simpa using h1⟩
    | (r2, .ok f2) =>
      rw [hp] at h1
      simp only at h1
      obtain ⟨a2, h2⟩ := configureFieldsRegsGrow rest r2
      match hc : configureFields rest r2 with
      | (r3, .error e) =>
        rw [hc] at h2
        simp only at h2
        refine ⟨a1 ++ a2, ?_⟩
        simp only [configureFields, hp, hc]
        simp [h1, h2]
      | (r3, .ok rest2) =>
        rw [hc] at h2
        simp only at h2
        refine ⟨a1 ++ a2, ?_⟩
        simp only [configureFields, hp, hc]
        simp [h1, h2]
termination_by fs _ => sizeOf fs

end

/-- Walking an append: the prefix is processed first; when it succeeds the
suffix continues from the registry state the prefix left behind. -/
theorem configureFieldsAppend : ∀ (pref : List GoField) (regs r1 : List FlagReg)
    (pref2 rest : List GoField),
    configureFields pref regs = (r1, Except.ok pref2) →
    configureFields (pref ++ rest) regs =
      (match configureFields rest r1 with
       | (r2, .error e) => (r2, .error e)
       | (r2, .ok rest2) => (r2, .ok (pref2 ++ rest2))) := by
  intro pref
  induction pref with
  | nil =>
    intro regs r1 pref2 rest h
    simp only [configureFields, Prod.mk.injEq, Except.ok.injEq] at h
    obtain ⟨h1, h2⟩ := h
    subst h1
    subst h2
    match hr : configureFields rest regs with
    | (r2, .error e) => simp [hr]
    | (r2, .ok rest2) => simp [hr]
  | cons f fs ih =>
    intro regs r1 pref2 rest h
    simp only [configureFields] at h
    match hp : processField f regs with
    | (ra, .error e) =>
      rw [hp] at h
      simp at h
    | (ra, .ok f2) =>
      rw [hp] at h
      dsimp only at h
      match hc : configureFields fs ra with
      | (rb, .error e) =>
        rw [hc] at h
        simp at h
      | (rb, .ok fs2) =>
        rw [hc] at h
        simp only [Prod.mk.injEq, Except.ok.injEq] at h
        obtain ⟨hb, hpref⟩ := h
        subst hb
        subst hpref
        simp only [List.cons_append, configureFields, hp, List.append_eq]
        rw [ih ra rb fs2 rest hc]
        match hr : configureFields rest rb with
        | (r2, .error e) => simp [hr]
        | (r2, .ok rest2) => simp [hr]

/-- A comma-free list is never broken. -/
theorem breakAtCommaOfNotMem : ∀ (a : List Char), ',' ∉ a → breakAtComma a = none
  | [], _ => rfl
  | c :: rest, h => by
    simp only [List.mem_cons, not_or] at h
    obtain ⟨hc, hr⟩ := h
    have hc2 : ¬ (c = ',') := fun e => hc e.symm
    simp [breakAtComma, hc2, breakAtCommaOfNotMem rest hr]

/-- Breaking at the first comma after a comma-free part. -/
theorem breakAtCommaAppend : ∀ (a r : List Char), ',' ∉ a →
    breakAtComma (a ++ ',' :: r) = some (a, r)
  | [], r, _ => by simp [breakAtComma]
  | c :: rest, r, h => by
    simp only [List.mem_cons, not_or] at h
    obtain ⟨hc, hr⟩ := h
    have hc2 : ¬ (c = ',') := fun e => hc e.symm
    simp [breakAtComma, hc2, breakAtCommaAppend rest r hr]

/-- Unfolding equation: the walk processes the head field first and, when it
succeeds, continues with the tail from the head's registry state — fields
are visited in declaration order. -/
theorem configureFieldsConsEq (f : GoField) (rest : List GoField) (regs : List FlagReg) :
    configureFields (f :: rest) regs =
      (match processField f regs with
       | (regs2, .error e) => (regs2, .error e)
       | (regs2, .ok f2) =>
         match configureFields rest regs2 with
         | (regs3, .error e) => (regs3, .error e)
         | (regs3, .ok rest2) => (regs3, .ok (f2 :: rest2))) := by
  rw [configureFields.eq_def]

/-- Unfolding equation: an untagged struct field is recursed into with the
same algorithm. -/
theorem processFieldUntaggedStructEq (n optStr : String) (ex : Bool)
    (inner : List GoField) (regs : List FlagReg) :
    processField (GoField.mk n "" optStr ex (GoValue.strct inner)) regs =
      (match configureFields inner regs with
       | (regs2, .error e) => (regs2, .error e)
       | (regs2, .ok inner2) =>
         (regs2, .ok (GoField.mk n "" optStr ex (GoValue.strct inner2)))) := by
  rw [processField.eq_def]
  dsimp only
  rw [if_pos rfl]

/-- Unfolding equation for a tagged field with a non-empty parsed name:
resolve indirection, check settability, then try self-describing
registration (unless skipped) with primitive registration as the fallback. -/
theorem processFieldTaggedEq (n tagStr optStr : String) (ex : Bool) (v : GoValue)
    (regs : List FlagReg) (htag : tagStr ≠ "")
    (hname : (parseTag tagStr optStr).Name ≠ "") :
    processField (GoField.mk n tagStr optStr ex v) regs =
      (match resolveIndirection n (parseTag tagStr optStr).Name ex v with
       | .error e => (regs, .error e)
       | .ok (leaf, path, settable) =>
         if settable = false then
           (regs, .error (.unaddressableField n (parseTag tagStr optStr).Name))
         else
           match (if (parseTag tagStr optStr).SkipFlagValue = true then none
                  else registerFlagByValueInterface n leaf (parseTag tagStr optStr) regs) with
           | some (regs2, .error e) => (regs2, .error e)
           | some (regs2, .ok leaf2) =>
             (regs2, .ok (GoField.mk n tagStr optStr ex (rebuildIndir path leaf2)))
           | none =>
             match registerFlagByPrimitive n leaf (parseTag tagStr optStr) regs with
             | (regs2, .error e) => (regs2, .error e)
             | (regs2, .ok leaf2) =>
               (regs2, .ok (GoField.mk n tagStr optStr ex (rebuildIndir path leaf2)))) := by
  rw [processField.eq_def]
  dsimp only
  rw [if_neg htag, if_neg hname]

/-! ## The claims -/

/-- parseTag on a value with at least two commas: name and default are the
comma-free first two parts, the description keeps the rest verbatim. -/
theorem parseTagSplit3 (a b c : List Char) (o : String) (ha : ',' ∉ a) (hb : ',' ∉ b) :
    parseTag (String.mk (a ++ ',' :: (b ++ ',' :: c))) o =
      { Name := String.mk a, DefaultValue := String.mk b, Description := String.mk c,
        SkipFlagValue := decide ("skipFlagValue".data ∈ splitAllComma o.data) } := by
  have hsplit : splitNComma 3 (a ++ ',' :: (b ++ ',' :: c)) = [a, b, c] := by
    simp [splitNComma, breakAtCommaAppend a (b ++ ',' :: c) ha, breakAtCommaAppend b c hb]
  unfold parseTag
  rw [show (String.mk (a ++ ',' :: (b ++ ',' :: c))).data = a ++ ',' :: (b ++ ',' :: c) from rfl,
    hsplit]
  rfl

/-- parseTag on a comma-free value: missing parts are padded empty. -/
theorem parseTagPad (a : List Char) (o : String) (ha : ',' ∉ a) :
    parseTag (String.mk a) o =
      { Name := String.mk a, DefaultValue := "", Description := "",
        SkipFlagValue := decide ("skipFlagValue".data ∈ splitAllComma o.data) } := by
  have hsplit : splitNComma 3 a = [a] := by
    simp [splitNComma, breakAtCommaOfNotMem a ha]
  unfold parseTag
  rw [show (String.mk a).data = a from rfl, hsplit]
  rfl

/-- A tagged field whose parsed name is empty aborts the walk with the
invalid-flag-name error. -/
theorem emptyNameErr (n tagStr optStr : String) (ex : Bool) (v : GoValue)
    (rest : List GoField) (regs : List FlagReg) (htag : tagStr ≠ "")
    (hname : (parseTag tagStr optStr).Name = "") :
    configureFields (GoField.mk n tagStr optStr ex v :: rest) regs =
      (regs, Except.error (ConfigError.invalidFlagName n)) := by
  have hp : processField (GoField.mk n tagStr optStr ex v) regs =
      (regs, Except.error (ConfigError.invalidFlagName n)) := by
    rw [processField.eq_def]
    dsimp only
    rw [if_neg htag]
    show (if (parseTag tagStr optStr).Name = "" then _ else _) = _
    rw [if_pos hname]
  rw [configureFieldsConsEq, hp]

/-- C9: the tag parser is total (it is a plain Lean function) and splits on
the first two commas only, so the description may contain commas; missing
trailing parts are padded with the empty string ("a" yields name "a",
default "", description ""); the non-empty-name invariant is enforced at
consumption time: a tagged field whose parsed name is empty makes the walk
(and hence Configure) return the invalid-flag-name error. -/
theorem claim_C9_tag_parsing :
    (∀ (a b c : List Char) (o : String), ',' ∉ a → ',' ∉ b →
      parseTag (String.mk (a ++ ',' :: (b ++ ',' :: c))) o =
        { Name := String.mk a, DefaultValue := String.mk b, Description := String.mk c,
          SkipFlagValue := decide ("skipFlagValue".data ∈ splitAllComma o.data) }) ∧
    (∀ (a : List Char) (o : String), ',' ∉ a →
      parseTag (String.mk a) o =
        { Name := String.mk a, DefaultValue := "", Description := "",
          SkipFlagValue := decide ("skipFlagValue".data ∈ splitAllComma o.data) }) ∧
    (∀ (n tagStr optStr : String) (ex : Bool) (v : GoValue) (rest : List GoField)
      (regs : List FlagReg), tagStr ≠ "" → (parseTag tagStr optStr).Name = "" →
      configureFields (GoField.mk n tagStr optStr ex v :: rest) regs =
        (regs, Except.error (ConfigError.invalidFlagName n))) :=
  ⟨fun a b c o ha hb => parseTagSplit3 a b c o ha hb,
   fun a o ha => parseTagPad a o ha,
   fun n tagStr optStr ex v rest regs htag hname =>
     emptyNameErr n tagStr optStr ex v rest regs htag hname⟩

/-- C9 witness: concrete instances of the three parts. -/
theorem claim_C9_witness :
    parseTag "a" "" = { Name := "a", DefaultValue := "", Description := "", SkipFlagValue := false } ∧
    parseTag "a,b,c,d" "" =
      { Name := "a", DefaultValue := "b", Description := "c,d", SkipFlagValue := false } ∧
    configureFields [GoField.mk "V" ",," "" true (GoValue.prim stringT (PrimVal.vs ""))] [] =
      ([], Except.error (ConfigError.invalidFlagName "V")) := by
  refine ⟨?_, ?_, ?_⟩
  · exact claim_C9_tag_parsing.2.1 "a".data "" (by decide)
  · exact claim_C9_tag_parsing.1 "a".data "b".data "c,d".data "" (by decide) (by decide)
  · exact claim_C9_tag_parsing.2.2 "V" ",," "" true _ [] [] (by decide) (by decide)

/-- C8 counterexample: the claim says top-level validation returns an error
(rather than crashing) whenever the candidate, after removing one layer of
pointer indirection, is not a struct.  A non-pointer candidate — here the
plain int value 42 passed by value — instead hits reflect.Value.IsNil,
which panics on an int Value, so Configure crashes rather than returning
an error. -/
theorem claim_C8_counterexample :
    Configure (some (GoValue.prim intT (PrimVal.vi 42))) [] =
      ([], GoResult.panicked "reflect: call of reflect.Value.IsNil on int Value") := rfl

/-- C8 (amended): a nil candidate yields the nil-config error; a nil pointer
yields the nil-pointer error; a non-nil POINTER whose pointee is not a
struct yields the not-a-struct error; for every non-nil pointer to a struct
the walk runs, and in particular a struct with no flag tags anywhere
succeeds and registers nothing.  A non-pointer candidate (struct or
primitive passed by value) makes reflect.Value.IsNil panic instead of
returning an error. -/
theorem claim_C8_top_validation :
    (∀ regs, Configure none regs = (regs, GoResult.err ConfigError.nilConfig)) ∧
    (∀ regs, Configure (some (GoValue.ptr none)) regs = (regs, GoResult.err ConfigError.nilPointer)) ∧
    (∀ (inner : GoValue) (regs : List FlagReg), isStructV inner = false →
      Configure (some (GoValue.ptr (some inner))) regs =
        (regs, GoResult.err ConfigError.notAStruct)) ∧
    (∀ (fields : List GoField) (regs : List FlagReg),
      Configure (some (GoValue.ptr (some (GoValue.strct fields)))) regs =
        (match configureFields fields regs with
         | (regs2, .error e) => (regs2, GoResult.err e)
         | (regs2, .ok fields2) => (regs2, GoResult.ok (GoValue.strct fields2)))) ∧
    (∀ (fields : List GoField) (regs : List FlagReg), untaggedFieldsAll fields = true →
      Configure (some (GoValue.ptr (some (GoValue.strct fields)))) regs =
        (regs, GoResult.ok (GoValue.strct fields))) ∧
    (∀ (t : PrimType) (pv : PrimVal) (regs : List FlagReg),
      Configure (some (GoValue.prim t pv)) regs =
        (regs, GoResult.panicked
          ("reflect: call of reflect.Value.IsNil on " ++ kindNameForPanic (GoValue.prim t pv) ++ " Value"))) ∧
    (∀ (fields : List GoField) (regs : List FlagReg),
      Configure (some (GoValue.strct fields)) regs =
        (regs, GoResult.panicked "reflect: call of reflect.Value.IsNil on struct Value")) := by
  refine ⟨fun regs => rfl, fun regs => rfl, ?_, ?_, ?_, fun t pv regs => rfl, fun fields regs => rfl⟩
  · intro inner regs h
    cases inner with
    | prim t pv => rfl
    | ptr e => rfl
    | iface c => rfl
    | strct fs => simp [isStructV] at h
  · intro fields regs
    simp only [Configure, getStructValue, getStructValueV]
  · intro fields regs h
    simp only [Configure, getStructValue, getStructValueV, untaggedOk fields regs h]

/-- C8 witness: the hypothesis-bearing parts at concrete inputs. -/
theorem claim_C8_witness :
    Configure (some (GoValue.ptr (some (GoValue.prim intT (PrimVal.vi 7))))) [] =
      ([], GoResult.err ConfigError.notAStruct) ∧
    Configure (some (GoValue.ptr (some (GoValue.strct
        [GoField.mk "A" "" "" true (GoValue.prim intT (PrimVal.vi 0)),
         GoField.mk "B" "" "" true (GoValue.prim uintT (PrimVal.vu 0)),
         GoField.mk "C" "" "" true (GoValue.prim stringT (PrimVal.vs ""))])))) [] =
      ([], GoResult.ok (GoValue.strct
        [GoField.mk "A" "" "" true (GoValue.prim intT (PrimVal.vi 0)),
         GoField.mk "B" "" "" true (GoValue.prim uintT (PrimVal.vu 0)),
         GoField.mk "C" "" "" true (GoValue.prim stringT (PrimVal.vs ""))])) := by
  constructor
  · exact claim_C8_top_validation.2.2.1 (GoValue.prim intT (PrimVal.vi 7)) [] rfl
  · exact claim_C8_top_validation.2.2.2.2.1 _ [] rfl

/-- C4: for a field whose resolved type is exactly time.Duration the
duration case runs before (and regardless of) the generic kind switch: the
default is parsed with the duration grammar, a parse failure produces the
invalid-default error, and the default "1h" registers an option whose
canonical textual default is "1h0m0s". -/
theorem claim_C4_duration_special_case :
    (∀ (fname : String) (t : PrimType) (pv : PrimVal) (tag : FlagTag) (regs : List FlagReg),
      t.isDuration = true →
      registerFlagByPrimitive fname (GoValue.prim t pv) tag regs =
        (match parseDuration tag.DefaultValue with
         | .error cause => (regs, Except.error (ConfigError.invalidDefault fname tag.Name cause))
         | .ok d =>
           (regs ++ [{ name := tag.Name, defValue := durationString d, usage := tag.Description }],
            Except.ok (GoValue.prim t (PrimVal.vi d))))) ∧
    parseDuration "1h" = Except.ok 3600000000000 ∧
    durationString 3600000000000 = "1h0m0s" ∧
    Configure (some (GoValue.ptr (some (GoValue.strct
        [GoField.mk "D" "flagDuration,1h,Specify duration" "" true
          (GoValue.prim durationT (PrimVal.vi 0))])))) [] =
      ([{ name := "flagDuration", defValue := "1h0m0s", usage := "Specify duration" }],
       GoResult.ok (GoValue.strct
        [GoField.mk "D" "flagDuration,1h,Specify duration" "" true
          (GoValue.prim durationT (PrimVal.vi 3600000000000))])) ∧
    Configure (some (GoValue.ptr (some (GoValue.strct
        [GoField.mk "D" "flagDuration,1abcde,Specify duration" "" true
          (GoValue.prim durationT (PrimVal.vi 0))])))) [] =
      ([], GoResult.err (ConfigError.invalidDefault "D" "flagDuration" "unknown unit in duration")) := by
  refine ⟨?_, rfl, rfl, rfl, rfl⟩
  intro fname t pv tag regs h
  simp [registerFlagByPrimitive, h]

/-- C4 witness: the duration branch applied to a concrete duration-typed
field with default "1h". -/
theorem claim_C4_witness :
    registerFlagByPrimitive "D" (GoValue.prim durationT (PrimVal.vi 0))
      { Name := "d", DefaultValue := "1h", Description := "u", SkipFlagValue := false } [] =
      ([{ name := "d", defValue := "1h0m0s", usage := "u" }],
       Except.ok (GoValue.prim durationT (PrimVal.vi 3600000000000))) := by
  have h := claim_C4_duration_special_case.1 "D" durationT (PrimVal.vi 0)
    { Name := "d", DefaultValue := "1h", Description := "u", SkipFlagValue := false } [] rfl
  have h2 : parseDuration "1h" = Except.ok 3600000000000 := rfl
  rw [h2] at h
  exact h

/-- C2: a tagged nil-pointer field aborts with the nil-pointer error; a
non-nil pointer redirects to the pointee's value and address; a nil
interface aborts with the nil-interface error; an interface holding a nil
pointer aborts with the nil-interface-value error; an interface holding a
non-nil pointer redirects to the pointee; an interface holding a concrete
non-pointer value redirects to an unaddressable leaf; and after
indirection, a leaf that cannot be set in place (e.g. an unexported field)
aborts with the unaddressable-field error. -/
theorem claim_C2_indirection :
    (∀ (n tagStr optStr : String) (ex : Bool) (rest : List GoField) (regs : List FlagReg),
      tagStr ≠ "" → (parseTag tagStr optStr).Name ≠ "" →
      configureFields (GoField.mk n tagStr optStr ex (GoValue.ptr none) :: rest) regs =
        (regs, Except.error (ConfigError.nilPointerTarget n (parseTag tagStr optStr).Name))) ∧
    (∀ (n tn : String) (ex : Bool) (inner : GoValue),
      resolveIndirection n tn ex (GoValue.ptr (some inner)) =
        Except.ok (inner, IndirPath.viaPtr, ex)) ∧
    (∀ (n tagStr optStr : String) (ex : Bool) (rest : List GoField) (regs : List FlagReg),
      tagStr ≠ "" → (parseTag tagStr optStr).Name ≠ "" →
      configureFields (GoField.mk n tagStr optStr ex (GoValue.iface none) :: rest) regs =
        (regs, Except.error (ConfigError.nilInterface n (parseTag tagStr optStr).Name))) ∧
    (∀ (n tagStr optStr : String) (ex : Bool) (rest : List GoField) (regs : List FlagReg),
      tagStr ≠ "" → (parseTag tagStr optStr).Name ≠ "" →
      configureFields
          (GoField.mk n tagStr optStr ex (GoValue.iface (some (GoValue.ptr none))) :: rest) regs =
        (regs, Except.error (ConfigError.nilInterfaceValue n (parseTag tagStr optStr).Name))) ∧
    (∀ (n tn : String) (ex : Bool) (inner : GoValue),
      resolveIndirection n tn ex (GoValue.iface (some (GoValue.ptr (some inner)))) =
        Except.ok (inner, IndirPath.viaIfacePtr, ex)) ∧
    (∀ (n tn : String) (ex : Bool) (t : PrimType) (pv : PrimVal),
      resolveIndirection n tn ex (GoValue.iface (some (GoValue.prim t pv))) =
        Except.ok (GoValue.prim t pv, IndirPath.viaIfaceValue, false)) ∧
    (∀ (n tagStr optStr : String) (ex : Bool) (v leaf : GoValue) (path : IndirPath)
      (rest : List GoField) (regs : List FlagReg),
      tagStr ≠ "" → (parseTag tagStr optStr).Name ≠ "" →
      resolveIndirection n (parseTag tagStr optStr).Name ex v = Except.ok (leaf, path, false) →
      configureFields (GoField.mk n tagStr optStr ex v :: rest) regs =
        (regs, Except.error (ConfigError.unaddressableField n (parseTag tagStr optStr).Name))) ∧
    (∀ (n tn : String) (t : PrimType) (pv : PrimVal),
      resolveIndirection n tn false (GoValue.prim t pv) =
        Except.ok (GoValue.prim t pv, IndirPath.direct, false)) := by
  refine ⟨?_, fun n tn ex inner => rfl, ?_, ?_, fun n tn ex inner => rfl,
    fun n tn ex t pv => rfl, ?_, fun n tn t pv => rfl⟩
  · intro n tagStr optStr ex rest regs htag hname
    rw [configureFieldsConsEq, processFieldTaggedEq n tagStr optStr ex _ regs htag hname]
    rfl
  · intro n tagStr optStr ex rest regs htag hname
    rw [configureFieldsConsEq, processFieldTaggedEq n tagStr optStr ex _ regs htag hname]
    rfl
  · intro n tagStr optStr ex rest regs htag hname
    rw [configureFieldsConsEq, processFieldTaggedEq n tagStr optStr ex _ regs htag hname]
    rfl
  · intro n tagStr optStr ex v leaf path rest regs htag hname hres
    rw [configureFieldsConsEq, processFieldTaggedEq n tagStr optStr ex _ regs htag hname, hres]
    rfl

/-- C2 witness: concrete instances — a nil *int field, and an unexported
string field (read-only leaf) both abort with the stated errors. -/
theorem claim_C2_witness :
    configureFields [GoField.mk "D" "flagValueIntPointer,123,My first primitive pointer flag." ""
        true (GoValue.ptr none)] [] =
      ([], Except.error (ConfigError.nilPointerTarget "D" "flagValueIntPointer")) ∧
    configureFields [GoField.mk "v" "unexported,unexported,Tag." "" false
        (GoValue.prim stringT (PrimVal.vs ""))] [] =
      ([], Except.error (ConfigError.unaddressableField "v" "unexported")) := by
  constructor
  · exact claim_C2_indirection.1 "D" "flagValueIntPointer,123,My first primitive pointer flag." ""
      true [] [] (by decide) (by decide)
  · exact claim_C2_indirection.2.2.2.2.2.2.1 "v" "unexported,unexported,Tag." "" false
      (GoValue.prim stringT (PrimVal.vs "")) (GoValue.prim stringT (PrimVal.vs ""))
      IndirPath.direct [] [] (by decide) (by decide) rfl

/-- C5: when the parsed option flag SkipSelfDescribing is set (the flagopt
tag contains the token skipFlagValue), primitive-kind dispatch is forced
even for a type implementing flag.Value; without it, self-describing
registration is attempted first and, when it succeeds, the field is fully
handled and primitive dispatch is skipped; the option flag is exactly
membership of the literal token in the comma-split option list, unknown
tokens being ignored. -/
theorem claim_C5_skip_self_describing :
    (∀ (n tagStr optStr : String) (t : PrimType) (pv : PrimVal) (regs : List FlagReg),
      tagStr ≠ "" → (parseTag tagStr optStr).Name ≠ "" →
      (parseTag tagStr optStr).SkipFlagValue = true →
      configureFields [GoField.mk n tagStr optStr true (GoValue.prim t pv)] regs =
        (match registerFlagByPrimitive n (GoValue.prim t pv) (parseTag tagStr optStr) regs with
         | (regs2, .error e) => (regs2, .error e)
         | (regs2, .ok leaf2) => (regs2, .ok [GoField.mk n tagStr optStr true leaf2]))) ∧
    (∀ (n tagStr optStr : String) (t : PrimType) (impl : FlagValueImpl) (pv : PrimVal)
      (regs : List FlagReg),
      tagStr ≠ "" → (parseTag tagStr optStr).Name ≠ "" →
      (parseTag tagStr optStr).SkipFlagValue = false →
      t.flagValue = some impl → (parseTag tagStr optStr).DefaultValue = "" →
      configureFields [GoField.mk n tagStr optStr true (GoValue.prim t pv)] regs =
        (regs ++ [{ name := (parseTag tagStr optStr).Name, defValue := impl.render pv,
                    usage := (parseTag tagStr optStr).Description }],
         Except.ok [GoField.mk n tagStr optStr true (GoValue.prim t pv)])) ∧
    (∀ (value optValue : String),
      (parseTag value optValue).SkipFlagValue =
        decide ("skipFlagValue".data ∈ splitAllComma optValue.data)) ∧
    (parseTag "a,b,c" "skipFlagValue").SkipFlagValue = true ∧
    (parseTag "a,b,c" "unknown,skipFlagValue").SkipFlagValue = true ∧
    (parseTag "a,b,c" "unknownToken").SkipFlagValue = false ∧
    configureFields [GoField.mk "D" "fv,42,desc" "skipFlagValue" true
        (GoValue.prim dummyIntT (PrimVal.vi 0))] [] =
      ([{ name := "fv", defValue := "42", usage := "desc" }],
       Except.ok [GoField.mk "D" "fv,42,desc" "skipFlagValue" true
         (GoValue.prim dummyIntT (PrimVal.vi 42))]) ∧
    configureFields [GoField.mk "D" "fv,,desc" "" true
        (GoValue.prim dummyIntT (PrimVal.vi 0))] [] =
      ([{ name := "fv", defValue := "0", usage := "desc" }],
       Except.ok [GoField.mk "D" "fv,,desc" "" true (GoValue.prim dummyIntT (PrimVal.vi 0))]) := by
  refine ⟨?_, ?_, fun value optValue => rfl, rfl, rfl, rfl, rfl, rfl⟩
  · intro n tagStr optStr t pv regs htag hname hskip
    rw [configureFieldsConsEq, processFieldTaggedEq n tagStr optStr true _ regs htag hname]
    rw [show resolveIndirection n (parseTag tagStr optStr).Name true (GoValue.prim t pv) =
        Except.ok (GoValue.prim t pv, IndirPath.direct, true) from rfl]
    dsimp only
    rw [if_neg (by decide : ¬ (true = false))]
    rw [hskip, if_pos (rfl : true = true)]
    dsimp only
    match hp : registerFlagByPrimitive n (GoValue.prim t pv) (parseTag tagStr optStr) regs with
    | (r2, .error e) => rfl
    | (r2, .ok leaf2) => simp [configureFields, rebuildIndir]
  · intro n tagStr optStr t impl pv regs htag hname hskip hfv hdef
    have hrv : registerFlagByValueInterface n (GoValue.prim t pv) (parseTag tagStr optStr) regs =
        some (regs ++
          [FlagReg.mk (parseTag tagStr optStr).Name (impl.render pv)
            (parseTag tagStr optStr).Description],
          Except.ok (GoValue.prim t pv)) := by
      unfold registerFlagByValueInterface
      dsimp only
      rw [hfv]
      dsimp only
      rw [if_pos hdef]
    rw [configureFieldsConsEq, processFieldTaggedEq n tagStr optStr true _ regs htag hname]
    rw [show resolveIndirection n (parseTag tagStr optStr).Name true (GoValue.prim t pv) =
        Except.ok (GoValue.prim t pv, IndirPath.direct, true) from rfl]
    dsimp only
    rw [if_neg (by decide : ¬ (true = false))]
    rw [hskip, if_neg (by decide : ¬ (false = true))]
    rw [hrv]
    simp [configureFields, rebuildIndir]

/-- C5 witness: the skip branch applied to the flag.Value type dummyInt (the
forced primitive dispatch parses 42 as an int), and the no-skip branch
applied to dummyInt (registered through flag.Value, rendered "0"). -/
theorem claim_C5_witness :
    configureFields [GoField.mk "E" "sk,7,u" "skipFlagValue" true
        (GoValue.prim dummyIntT (PrimVal.vi 1))] [] =
      ([{ name := "sk", defValue := "7", usage := "u" }],
       Except.ok [GoField.mk "E" "sk,7,u" "skipFlagValue" true
         (GoValue.prim dummyIntT (PrimVal.vi 7))]) ∧
    configureFields [GoField.mk "E" "nv,,u" "" true
        (GoValue.prim dummyIntT (PrimVal.vi 3))] [] =
      ([{ name := "nv", defValue := "3", usage := "u" }],
       Except.ok [GoField.mk "E" "nv,,u" "" true (GoValue.prim dummyIntT (PrimVal.vi 3))]) := by
  constructor
  · have h := claim_C5_skip_self_describing.1 "E" "sk,7,u" "skipFlagValue" dummyIntT
      (PrimVal.vi 1) [] (by decide) (by decide) (by decide)
    rw [h]
    rfl
  · have h := claim_C5_skip_self_describing.2.1 "E" "nv,,u" "" dummyIntT dummyIntImpl
      (PrimVal.vi 3) [] (by decide) (by decide) (by decide) rfl rfl
    rw [h]
    rfl

/-- C6: for a field registered through flag.Value whose tag has a non-empty
default, Set is invoked with the default at registration time and a Set
error is propagated as the walk's (and hence Configure's) result, with the
flag itself already registered since flag.Var precedes the prime; a
successful prime stores Set's result in the field; a type that does not
implement flag.Value makes the attempt return none, mutating neither the
field nor the registry. -/
theorem claim_C6_value_priming :
    (∀ (n tagStr optStr : String) (t : PrimType) (impl : FlagValueImpl) (pv : PrimVal)
      (rest : List GoField) (regs : List FlagReg) (cause : String),
      tagStr ≠ "" → (parseTag tagStr optStr).Name ≠ "" →
      (parseTag tagStr optStr).SkipFlagValue = false →
      t.flagValue = some impl → (parseTag tagStr optStr).DefaultValue ≠ "" →
      impl.set (parseTag tagStr optStr).DefaultValue = Except.error cause →
      configureFields (GoField.mk n tagStr optStr true (GoValue.prim t pv) :: rest) regs =
        (regs ++ [{ name := (parseTag tagStr optStr).Name, defValue := impl.render pv,
                    usage := (parseTag tagStr optStr).Description }],
         Except.error (ConfigError.invalidDefault n (parseTag tagStr optStr).Name cause))) ∧
    (∀ (n tagStr optStr : String) (t : PrimType) (impl : FlagValueImpl) (pv pv2 : PrimVal)
      (regs : List FlagReg),
      tagStr ≠ "" → (parseTag tagStr optStr).Name ≠ "" →
      (parseTag tagStr optStr).SkipFlagValue = false →
      t.flagValue = some impl → (parseTag tagStr optStr).DefaultValue ≠ "" →
      impl.set (parseTag tagStr optStr).DefaultValue = Except.ok pv2 →
      configureFields [GoField.mk n tagStr optStr true (GoValue.prim t pv)] regs =
        (regs ++ [{ name := (parseTag tagStr optStr).Name, defValue := impl.render pv,
                    usage := (parseTag tagStr optStr).Description }],
         Except.ok [GoField.mk n tagStr optStr true (GoValue.prim t pv2)])) ∧
    (∀ (fname : String) (t : PrimType) (pv : PrimVal) (tag : FlagTag) (regs : List FlagReg),
      t.flagValue = none →
      registerFlagByValueInterface fname (GoValue.prim t pv) tag regs = none) ∧
    (∀ (fname : String) (fields : List GoField) (tag : FlagTag) (regs : List FlagReg),
      registerFlagByValueInterface fname (GoValue.strct fields) tag regs = none) := by
  refine ⟨?_, ?_, ?_, fun fname fields tag regs => rfl⟩
  · intro n tagStr optStr t impl pv rest regs cause htag hname hskip hfv hdef hset
    have hrv : registerFlagByValueInterface n (GoValue.prim t pv) (parseTag tagStr optStr) regs =
        some (regs ++
          [FlagReg.mk (parseTag tagStr optStr).Name (impl.render pv)
            (parseTag tagStr optStr).Description],
          Except.error (ConfigError.invalidDefault n (parseTag tagStr optStr).Name cause)) := by
      unfold registerFlagByValueInterface
      dsimp only
      rw [hfv]
      dsimp only
      rw [if_neg hdef, hset]
    rw [configureFieldsConsEq, processFieldTaggedEq n tagStr optStr true _ regs htag hname]
    rw [show resolveIndirection n (parseTag tagStr optStr).Name true (GoValue.prim t pv) =
        Except.ok (GoValue.prim t pv, IndirPath.direct, true) from rfl]
    dsimp only
    rw [if_neg (by decide : ¬ (true = false))]
    rw [hskip, if_neg (by decide : ¬ (false = true))]
    rw [hrv]
  · intro n tagStr optStr t impl pv pv2 regs htag hname hskip hfv hdef hset
    have hrv : registerFlagByValueInterface n (GoValue.prim t pv) (parseTag tagStr optStr) regs =
        some (regs ++
          [FlagReg.mk (parseTag tagStr optStr).Name (impl.render pv)
            (parseTag tagStr optStr).Description],
          Except.ok (GoValue.prim t pv2)) := by
      unfold registerFlagByValueInterface
      dsimp only
      rw [hfv]
      dsimp only
      rw [if_neg hdef, hset]
    rw [configureFieldsConsEq, processFieldTaggedEq n tagStr optStr true _ regs htag hname]
    rw [show resolveIndirection n (parseTag tagStr optStr).Name true (GoValue.prim t pv) =
        Except.ok (GoValue.prim t pv, IndirPath.direct, true) from rfl]
    dsimp only
    rw [if_neg (by decide : ¬ (true = false))]
    rw [hskip, if_neg (by decide : ¬ (false = true))]
    rw [hrv]
    simp [configureFields, rebuildIndir]
  · intro fname t pv tag regs hfv
    unfold registerFlagByValueInterface
    dsimp only
    rw [hfv]

/-- C6 witness: dummyInt primed with the unparsable default "xx" — the flag
is registered with the pre-prime rendering "0" and the Atoi error aborts
the walk; primed with "42" the field holds 42. -/
theorem claim_C6_witness :
    configureFields [GoField.mk "D" "fv,xx,desc" "" true
        (GoValue.prim dummyIntT (PrimVal.vi 0))] [] =
      ([{ name := "fv", defValue := "0", usage := "desc" }],
       Except.error (ConfigError.invalidDefault "D" "fv" "invalid syntax")) ∧
    configureFields [GoField.mk "D" "fv,42,desc" "" true
        (GoValue.prim dummyIntT (PrimVal.vi 0))] [] =
      ([{ name := "fv", defValue := "0", usage := "desc" }],
       Except.ok [GoField.mk "D" "fv,42,desc" "" true (GoValue.prim dummyIntT (PrimVal.vi 42))]) := by
  constructor
  · exact claim_C6_value_priming.1 "D" "fv,xx,desc" "" dummyIntT dummyIntImpl (PrimVal.vi 0)
      [] [] "invalid syntax" (by decide) (by decide) (by decide) rfl (by decide) rfl
  · exact claim_C6_value_priming.2.1 "D" "fv,42,desc" "" dummyIntT dummyIntImpl (PrimVal.vi 0)
      (PrimVal.vi 42) [] (by decide) (by decide) (by decide) rfl (by decide) rfl

/-- C3: the walk visits fields in declaration order (the head is processed
first and the tail continues from the head's registry state); an untagged
field whose type is a struct is recursed into with the same algorithm — a
validly tagged field three struct levels deep is discovered and registered;
an untagged field of any other type is skipped silently and unchanged; and
a struct-typed field that itself carries a flag tag is not recursed into:
it is treated as a leaf and fails with the unsupported-type error, leaving
tagged fields inside it unregistered. -/
theorem claim_C3_walk_recursion :
    (∀ (f : GoField) (rest : List GoField) (regs : List FlagReg),
      configureFields (f :: rest) regs =
        (match processField f regs with
         | (regs2, .error e) => (regs2, .error e)
         | (regs2, .ok f2) =>
           match configureFields rest regs2 with
           | (regs3, .error e) => (regs3, .error e)
           | (regs3, .ok rest2) => (regs3, .ok (f2 :: rest2)))) ∧
    (∀ (n optStr : String) (ex : Bool) (inner : List GoField) (regs : List FlagReg),
      processField (GoField.mk n "" optStr ex (GoValue.strct inner)) regs =
        (match configureFields inner regs with
         | (regs2, .error e) => (regs2, .error e)
         | (regs2, .ok inner2) =>
           (regs2, .ok (GoField.mk n "" optStr ex (GoValue.strct inner2))))) ∧
    (∀ (n optStr : String) (ex : Bool) (t : PrimType) (pv : PrimVal) (regs : List FlagReg),
      processField (GoField.mk n "" optStr ex (GoValue.prim t pv)) regs =
        (regs, Except.ok (GoField.mk n "" optStr ex (GoValue.prim t pv)))) ∧
    (∀ (n optStr : String) (ex : Bool) (p : Option GoValue) (regs : List FlagReg),
      processField (GoField.mk n "" optStr ex (GoValue.ptr p)) regs =
        (regs, Except.ok (GoField.mk n "" optStr ex (GoValue.ptr p)))) ∧
    (∀ (n optStr : String) (ex : Bool) (c : Option GoValue) (regs : List FlagReg),
      processField (GoField.mk n "" optStr ex (GoValue.iface c)) regs =
        (regs, Except.ok (GoField.mk n "" optStr ex (GoValue.iface c)))) ∧
    configureFields [GoField.mk "L1" "" "" true (GoValue.strct
        [GoField.mk "L2" "" "" true (GoValue.strct
          [GoField.mk "Deep" "deep,5,d3" "" true (GoValue.prim intT (PrimVal.vi 0))])])] [] =
      ([FlagReg.mk "deep" "5" "d3"],
       Except.ok [GoField.mk "L1" "" "" true (GoValue.strct
        [GoField.mk "L2" "" "" true (GoValue.strct
          [GoField.mk "Deep" "deep,5,d3" "" true (GoValue.prim intT (PrimVal.vi 5))])])]) ∧
    (∀ (n tagStr optStr : String) (inner rest : List GoField) (regs : List FlagReg),
      tagStr ≠ "" → (parseTag tagStr optStr).Name ≠ "" →
      configureFields (GoField.mk n tagStr optStr true (GoValue.strct inner) :: rest) regs =
        (regs, Except.error (ConfigError.unsupportedType n (parseTag tagStr optStr).Name))) := by
  refine ⟨configureFieldsConsEq, processFieldUntaggedStructEq,
    fun n optStr ex t pv regs => rfl, fun n optStr ex p regs => rfl,
    fun n optStr ex c regs => rfl, rfl, ?_⟩
  intro n tagStr optStr inner rest regs htag hname
  rw [configureFieldsConsEq, processFieldTaggedEq n tagStr optStr true _ regs htag hname]
  cases hsb : (parseTag tagStr optStr).SkipFlagValue with
  | true => rfl
  | false => rfl

/-- C3 witness: the order/recursion parts applied to the repository's mixed
nested-struct test shape (tagged field before, blank field, inner struct
with an untagged and a tagged field, tagged field after). -/
theorem claim_C3_witness :
    configureFields
        [GoField.mk "Before" "outerBefore,3,some description" "" true (GoValue.prim uintT (PrimVal.vu 0)),
         GoField.mk "Blank" "" "" true (GoValue.prim uintT (PrimVal.vu 0)),
         GoField.mk "Inner" "" "" true (GoValue.strct
           [GoField.mk "Dummy" "" "" true (GoValue.prim intT (PrimVal.vi 0)),
            GoField.mk "Inside" "innerInside,2,inside information" "" true (GoValue.prim stringT (PrimVal.vs ""))]),
         GoField.mk "After" "outerAfter,1,final remark" "" true (GoValue.prim intT (PrimVal.vi 0))] [] =
      ([FlagReg.mk "outerBefore" "3" "some description",
        FlagReg.mk "innerInside" "2" "inside information",
        FlagReg.mk "outerAfter" "1" "final remark"],
       Except.ok
        [GoField.mk "Before" "outerBefore,3,some description" "" true (GoValue.prim uintT (PrimVal.vu 3)),
         GoField.mk "Blank" "" "" true (GoValue.prim uintT (PrimVal.vu 0)),
         GoField.mk "Inner" "" "" true (GoValue.strct
           [GoField.mk "Dummy" "" "" true (GoValue.prim intT (PrimVal.vi 0)),
            GoField.mk "Inside" "innerInside,2,inside information" "" true (GoValue.prim stringT (PrimVal.vs "2"))]),
         GoField.mk "After" "outerAfter,1,final remark" "" true (GoValue.prim intT (PrimVal.vi 1))]) ∧
    configureFields [GoField.mk "Inner" "tagged,," "" true (GoValue.strct
        [GoField.mk "V" "innerv,1," "" true (GoValue.prim intT (PrimVal.vi 0))])] [] =
      ([], Except.error (ConfigError.unsupportedType "Inner" "tagged")) := by
  constructor
  · rw [claim_C3_walk_recursion.1]
    rfl
  · exact claim_C3_walk_recursion.2.2.2.2.2.2
      "Inner" "tagged,," ""
      [GoField.mk "V" "innerv,1," "" true (GoValue.prim intT (PrimVal.vi 0))] [] []
      (by decide) (by decide)

/-- C7: the first error produced by any field aborts the walk immediately:
the result is exactly that first error, the fields after the failing one
are never processed (the suffix is arbitrary and does not influence the
result), and the registry keeps everything registered up to that point —
it only ever grows, with no rollback. -/
theorem claim_C7_first_error_aborts :
    ∀ (pref : List GoField) (bad : GoField) (suff : List GoField)
      (regs r1 r2 : List FlagReg) (pref2 : List GoField) (e : ConfigError),
      configureFields pref regs = (r1, Except.ok pref2) →
      processField bad r1 = (r2, Except.error e) →
      configureFields (pref ++ bad :: suff) regs = (r2, Except.error e) ∧
      (∃ add, r1 = regs ++ add) ∧ (∃ add2, r2 = r1 ++ add2) := by
  intro pref bad suff regs r1 r2 pref2 e h1 h2
  refine ⟨?_, ?_, ?_⟩
  · rw [configureFieldsAppend pref regs r1 pref2 (bad :: suff) h1]
    rw [configureFieldsConsEq, h2]
  · obtain ⟨a, ha⟩ := configureFieldsRegsGrow pref regs
    rw [h1] at ha
    exact ⟨a, ha⟩
  · obtain ⟨a, ha⟩ := processFieldRegsGrow bad r1
    rw [h2] at ha
    exact ⟨a, ha⟩

/-- C7 witness: a valid string field, then a bool field with the bad default
"bad", then another valid field — the walk stops at the bool field with its
invalid-default error, the earlier string registration remains, and the
field after the failure is never registered. -/
theorem claim_C7_witness :
    configureFields
        [GoField.mk "A" "a,x,da" "" true (GoValue.prim stringT (PrimVal.vs "")),
         GoField.mk "B" "b,bad,db" "" true (GoValue.prim boolT (PrimVal.vb false)),
         GoField.mk "C" "c,y,dc" "" true (GoValue.prim stringT (PrimVal.vs ""))] [] =
      ([FlagReg.mk "a" "x" "da"],
       Except.error (ConfigError.invalidDefault "B" "b" "invalid syntax")) := by
  exact (claim_C7_first_error_aborts
    [GoField.mk "A" "a,x,da" "" true (GoValue.prim stringT (PrimVal.vs ""))]
    (GoField.mk "B" "b,bad,db" "" true (GoValue.prim boolT (PrimVal.vb false)))
    [GoField.mk "C" "c,y,dc" "" true (GoValue.prim stringT (PrimVal.vs ""))]
    [] [FlagReg.mk "a" "x" "da"] [FlagReg.mk "a" "x" "da"]
    [GoField.mk "A" "a,x,da" "" true (GoValue.prim stringT (PrimVal.vs "x"))]
    (ConfigError.invalidDefault "B" "b" "invalid syntax") rfl rfl).1

/-- The registry effect and the parsed value of a primitive-registration
outcome, forgetting the reflected type tag inside the returned leaf. -/
def resultShape (r : List FlagReg × Except ConfigError GoValue) :
    List FlagReg × Except ConfigError (Option PrimVal) :=
  (r.1, r.2.map fun v =>
    match v with
    | .prim _ pv => some pv
    | _ => none)

/-- Duration branch of primitive registration (isDuration wins over the kind
switch, whatever the kind). -/
theorem regPrimDurationEq (fname : String) (t : PrimType) (pv : PrimVal) (tag : FlagTag)
    (regs : List FlagReg) (hd : t.isDuration = true) :
    registerFlagByPrimitive fname (GoValue.prim t pv) tag regs =
      (match parseDuration tag.DefaultValue with
       | .error cause => (regs, Except.error (ConfigError.invalidDefault fname tag.Name cause))
       | .ok d => (regs ++ [FlagReg.mk tag.Name (durationString d) tag.Description],
                   Except.ok (GoValue.prim t (PrimVal.vi d)))) := by
  simp [registerFlagByPrimitive, hd]

/-- String branch: the raw default is bound with no parsing. -/
theorem regPrimStringEq (fname : String) (t : PrimType) (pv : PrimVal) (tag : FlagTag)
    (regs : List FlagReg) (hd : t.isDuration = false) (hk : t.kind = PrimKind.kString) :
    registerFlagByPrimitive fname (GoValue.prim t pv) tag regs =
      (regs ++ [FlagReg.mk tag.Name tag.DefaultValue tag.Description],
       Except.ok (GoValue.prim t (PrimVal.vs tag.DefaultValue))) := by
  simp [registerFlagByPrimitive, hd, hk]

/-- Bool branch: the default goes through strconv.ParseBool. -/
theorem regPrimBoolEq (fname : String) (t : PrimType) (pv : PrimVal) (tag : FlagTag)
    (regs : List FlagReg) (hd : t.isDuration = false) (hk : t.kind = PrimKind.kBool) :
    registerFlagByPrimitive fname (GoValue.prim t pv) tag regs =
      (match parseBool tag.DefaultValue with
       | .error cause => (regs, Except.error (ConfigError.invalidDefault fname tag.Name cause))
       | .ok b => (regs ++ [FlagReg.mk tag.Name (boolString b) tag.Description],
                   Except.ok (GoValue.prim t (PrimVal.vb b)))) := by
  simp [registerFlagByPrimitive, hd, hk]

/-- Float64 branch: the default goes through strconv.ParseFloat. -/
theorem regPrimFloatEq (fname : String) (t : PrimType) (pv : PrimVal) (tag : FlagTag)
    (regs : List FlagReg) (hd : t.isDuration = false) (hk : t.kind = PrimKind.kFloat64) :
    registerFlagByPrimitive fname (GoValue.prim t pv) tag regs =
      (match parseFloatGo tag.DefaultValue with
       | .error cause => (regs, Except.error (ConfigError.invalidDefault fname tag.Name cause))
       | .ok f => (regs ++ [FlagReg.mk tag.Name (floatRender f) tag.Description],
                   Except.ok (GoValue.prim t (PrimVal.vf f)))) := by
  simp [registerFlagByPrimitive, hd, hk]

/-- Int branch: strconv.ParseInt with auto base 0 and platform width 64. -/
theorem regPrimIntEq (fname : String) (t : PrimType) (pv : PrimVal) (tag : FlagTag)
    (regs : List FlagReg) (hd : t.isDuration = false) (hk : t.kind = PrimKind.kInt) :
    registerFlagByPrimitive fname (GoValue.prim t pv) tag regs =
      (match parseIntBase0 tag.DefaultValue 64 with
       | .error cause => (regs, Except.error (ConfigError.invalidDefault fname tag.Name cause))
       | .ok n => (regs ++ [FlagReg.mk tag.Name (toString n) tag.Description],
                   Except.ok (GoValue.prim t (PrimVal.vi n)))) := by
  simp [registerFlagByPrimitive, hd, hk]

/-- Int64 branch. -/
theorem regPrimInt64Eq (fname : String) (t : PrimType) (pv : PrimVal) (tag : FlagTag)
    (regs : List FlagReg) (hd : t.isDuration = false) (hk : t.kind = PrimKind.kInt64) :
    registerFlagByPrimitive fname (GoValue.prim t pv) tag regs =
      (match parseIntBase0 tag.DefaultValue 64 with
       | .error cause => (regs, Except.error (ConfigError.invalidDefault fname tag.Name cause))
       | .ok n => (regs ++ [FlagReg.mk tag.Name (toString n) tag.Description],
                   Except.ok (GoValue.prim t (PrimVal.vi n)))) := by
  simp [registerFlagByPrimitive, hd, hk]

/-- Uint branch: strconv.ParseUint with auto base 0 and platform width 64. -/
theorem regPrimUintEq (fname : String) (t : PrimType) (pv : PrimVal) (tag : FlagTag)
    (regs : List FlagReg) (hd : t.isDuration = false) (hk : t.kind = PrimKind.kUint) :
    registerFlagByPrimitive fname (GoValue.prim t pv) tag regs =
      (match parseUintBase0 tag.DefaultValue 64 with
       | .error cause => (regs, Except.error (ConfigError.invalidDefault fname tag.Name cause))
       | .ok n => (regs ++ [FlagReg.mk tag.Name (toString n) tag.Description],
                   Except.ok (GoValue.prim t (PrimVal.vu n)))) := by
  simp [registerFlagByPrimitive, hd, hk]

/-- Uint64 branch. -/
theorem regPrimUint64Eq (fname : String) (t : PrimType) (pv : PrimVal) (tag : FlagTag)
    (regs : List FlagReg) (hd : t.isDuration = false) (hk : t.kind = PrimKind.kUint64) :
    registerFlagByPrimitive fname (GoValue.prim t pv) tag regs =
      (match parseUintBase0 tag.DefaultValue 64 with
       | .error cause => (regs, Except.error (ConfigError.invalidDefault fname tag.Name cause))
       | .ok n => (regs ++ [FlagReg.mk tag.Name (toString n) tag.Description],
                   Except.ok (GoValue.prim t (PrimVal.vu n)))) := by
  simp [registerFlagByPrimitive, hd, hk]

/-- Any other kind is rejected. -/
theorem regPrimOtherEq (fname : String) (t : PrimType) (pv : PrimVal) (tag : FlagTag)
    (regs : List FlagReg) (hd : t.isDuration = false) (hk : t.kind = PrimKind.kOther) :
    registerFlagByPrimitive fname (GoValue.prim t pv) tag regs =
      (regs, Except.error (ConfigError.unsupportedType fname tag.Name)) := by
  simp [registerFlagByPrimitive, hd, hk]

/-- C1: primitive registration dispatches purely on the reflected kind (and
the exact-duration check): the type's name, its old value and any extra
methods are ignored, so a named type derived from int binds exactly as int
would; string binds the raw default, bool/float64/int/int64/uint/uint64
parse the default under that kind's literal grammar and any parse failure —
including the empty default for every non-string kind — yields the
invalid-default error naming the field and the option; any other kind
yields the unsupported-type error. -/
theorem claim_C1_primitive_dispatch :
    (∀ (fname : String) (tag : FlagTag) (regs : List FlagReg) (pv1 pv2 : PrimVal)
      (nm1 nm2 : String) (k : PrimKind) (d : Bool) (fv1 fv2 : Option FlagValueImpl),
      resultShape (registerFlagByPrimitive fname
        (GoValue.prim (PrimType.mk nm1 k d fv1) pv1) tag regs) =
      resultShape (registerFlagByPrimitive fname
        (GoValue.prim (PrimType.mk nm2 k d fv2) pv2) tag regs)) ∧
    (∀ (fname : String) (t : PrimType) (pv : PrimVal) (tag : FlagTag) (regs : List FlagReg),
      t.isDuration = false → t.kind = PrimKind.kString →
      registerFlagByPrimitive fname (GoValue.prim t pv) tag regs =
        (regs ++ [FlagReg.mk tag.Name tag.DefaultValue tag.Description],
         Except.ok (GoValue.prim t (PrimVal.vs tag.DefaultValue)))) ∧
    (∀ (fname : String) (t : PrimType) (pv : PrimVal) (tag : FlagTag) (regs : List FlagReg),
      t.isDuration = false → t.kind = PrimKind.kBool →
      registerFlagByPrimitive fname (GoValue.prim t pv) tag regs =
        (match parseBool tag.DefaultValue with
         | .error cause => (regs, Except.error (ConfigError.invalidDefault fname tag.Name cause))
         | .ok b => (regs ++ [FlagReg.mk tag.Name (boolString b) tag.Description],
                     Except.ok (GoValue.prim t (PrimVal.vb b))))) ∧
    (∀ (fname : String) (t : PrimType) (pv : PrimVal) (tag : FlagTag) (regs : List FlagReg),
      t.isDuration = false → t.kind = PrimKind.kFloat64 →
      registerFlagByPrimitive fname (GoValue.prim t pv) tag regs =
        (match parseFloatGo tag.DefaultValue with
         | .error cause => (regs, Except.error (ConfigError.invalidDefault fname tag.Name cause))
         | .ok f => (regs ++ [FlagReg.mk tag.Name (floatRender f) tag.Description],
                     Except.ok (GoValue.prim t (PrimVal.vf f))))) ∧
    (∀ (fname : String) (t : PrimType) (pv : PrimVal) (tag : FlagTag) (regs : List FlagReg),
      t.isDuration = false → (t.kind = PrimKind.kInt ∨ t.kind = PrimKind.kInt64) →
      registerFlagByPrimitive fname (GoValue.prim t pv) tag regs =
        (match parseIntBase0 tag.DefaultValue 64 with
         | .error cause => (regs, Except.error (ConfigError.invalidDefault fname tag.Name cause))
         | .ok n => (regs ++ [FlagReg.mk tag.Name (toString n) tag.Description],
                     Except.ok (GoValue.prim t (PrimVal.vi n))))) ∧
    (∀ (fname : String) (t : PrimType) (pv : PrimVal) (tag : FlagTag) (regs : List FlagReg),
      t.isDuration = false → (t.kind = PrimKind.kUint ∨ t.kind = PrimKind.kUint64) →
      registerFlagByPrimitive fname (GoValue.prim t pv) tag regs =
        (match parseUintBase0 tag.DefaultValue 64 with
         | .error cause => (regs, Except.error (ConfigError.invalidDefault fname tag.Name cause))
         | .ok n => (regs ++ [FlagReg.mk tag.Name (toString n) tag.Description],
                     Except.ok (GoValue.prim t (PrimVal.vu n))))) ∧
    (∀ (fname : String) (t : PrimType) (pv : PrimVal) (tag : FlagTag) (regs : List FlagReg),
      t.isDuration = false → t.kind = PrimKind.kOther →
      registerFlagByPrimitive fname (GoValue.prim t pv) tag regs =
        (regs, Except.error (ConfigError.unsupportedType fname tag.Name))) ∧
    parseBool "" = Except.error "invalid syntax" ∧
    parseFloatGo "" = Except.error "invalid syntax" ∧
    parseIntBase0 "" 64 = Except.error "invalid syntax" ∧
    parseUintBase0 "" 64 = Except.error "invalid syntax" ∧
    parseDuration "" = Except.error "invalid duration" ∧
    Configure (some (GoValue.ptr (some (GoValue.strct
        [GoField.mk "V" "b2,foo,This sets the bool flag." "" true
          (GoValue.prim boolT (PrimVal.vb false))])))) [] =
      ([], GoResult.err (ConfigError.invalidDefault "V" "b2" "invalid syntax")) ∧
    Configure (some (GoValue.ptr (some (GoValue.strct
        [GoField.mk "Invalid" "xxxxxx,," "" true (GoValue.prim uintptrT (PrimVal.vu 0))])))) [] =
      ([], GoResult.err (ConfigError.unsupportedType "Invalid" "xxxxxx")) ∧
    Configure (some (GoValue.ptr (some (GoValue.strct
        [GoField.mk "D" "flagValueAliasInt,-10,Alias of int." "" true
          (GoValue.prim aliasIntT (PrimVal.vi 0))])))) [] =
      ([FlagReg.mk "flagValueAliasInt" "-10" "Alias of int."],
       GoResult.ok (GoValue.strct
        [GoField.mk "D" "flagValueAliasInt,-10,Alias of int." "" true
          (GoValue.prim aliasIntT (PrimVal.vi (-10)))])) := by
  refine ⟨?_, regPrimStringEq, regPrimBoolEq, regPrimFloatEq, ?_, ?_, regPrimOtherEq,
    rfl, rfl, rfl, rfl, rfl, rfl, rfl, rfl⟩
  · intro fname tag regs pv1 pv2 nm1 nm2 k d fv1 fv2
    cases d with
    | true =>
      rw [regPrimDurationEq fname (PrimType.mk nm1 k true fv1) pv1 tag regs rfl,
        regPrimDurationEq fname (PrimType.mk nm2 k true fv2) pv2 tag regs rfl]
      cases hpd : parseDuration tag.DefaultValue with
      | error c => simp [resultShape, Except.map]
      | ok dd => simp [resultShape, Except.map]
    | false =>
      cases k with
      | kString =>
        rw [regPrimStringEq fname (PrimType.mk nm1 PrimKind.kString false fv1) pv1 tag regs rfl rfl,
          regPrimStringEq fname (PrimType.mk nm2 PrimKind.kString false fv2) pv2 tag regs rfl rfl]
        simp [resultShape, Except.map]
      | kBool =>
        rw [regPrimBoolEq fname (PrimType.mk nm1 PrimKind.kBool false fv1) pv1 tag regs rfl rfl,
          regPrimBoolEq fname (PrimType.mk nm2 PrimKind.kBool false fv2) pv2 tag regs rfl rfl]
        cases hp : parseBool tag.DefaultValue with
        | error c => simp [resultShape, Except.map]
        | ok b => simp [resultShape, Except.map]
      | kFloat64 =>
        rw [regPrimFloatEq fname (PrimType.mk nm1 PrimKind.kFloat64 false fv1) pv1 tag regs rfl rfl,
          regPrimFloatEq fname (PrimType.mk nm2 PrimKind.kFloat64 false fv2) pv2 tag regs rfl rfl]
        cases hp : parseFloatGo tag.DefaultValue with
        | error c => simp [resultShape, Except.map]
        | ok f => simp [resultShape, Except.map]
      | kInt =>
        rw [regPrimIntEq fname (PrimType.mk nm1 PrimKind.kInt false fv1) pv1 tag regs rfl rfl,
          regPrimIntEq fname (PrimType.mk nm2 PrimKind.kInt false fv2) pv2 tag regs rfl rfl]
        cases hp : parseIntBase0 tag.DefaultValue 64 with
        | error c => simp [resultShape, Except.map]
        | ok n => simp [resultShape, Except.map]
      | kInt64 =>
        rw [regPrimInt64Eq fname (PrimType.mk nm1 PrimKind.kInt64 false fv1) pv1 tag regs rfl rfl,
          regPrimInt64Eq fname (PrimType.mk nm2 PrimKind.kInt64 false fv2) pv2 tag regs rfl rfl]
        cases hp : parseIntBase0 tag.DefaultValue 64 with
        | error c => simp [resultShape, Except.map]
        | ok n => simp [resultShape, Except.map]
      | kUint =>
        rw [regPrimUintEq fname (PrimType.mk nm1 PrimKind.kUint false fv1) pv1 tag regs rfl rfl,
          regPrimUintEq fname (PrimType.mk nm2 PrimKind.kUint false fv2) pv2 tag regs rfl rfl]
        cases hp : parseUintBase0 tag.DefaultValue 64 with
        | error c => simp [resultShape, Except.map]
        | ok n => simp [resultShape, Except.map]
      | kUint64 =>
        rw [regPrimUint64Eq fname (PrimType.mk nm1 PrimKind.kUint64 false fv1) pv1 tag regs rfl rfl,
          regPrimUint64Eq fname (PrimType.mk nm2 PrimKind.kUint64 false fv2) pv2 tag regs rfl rfl]
        cases hp : parseUintBase0 tag.DefaultValue 64 with
        | error c => simp [resultShape, Except.map]
        | ok n => simp [resultShape, Except.map]
      | kOther =>
        rw [regPrimOtherEq fname (PrimType.mk nm1 PrimKind.kOther false fv1) pv1 tag regs rfl rfl,
          regPrimOtherEq fname (PrimType.mk nm2 PrimKind.kOther false fv2) pv2 tag regs rfl rfl]
  · intro fname t pv tag regs hd hk
    cases hk with
    | inl h => exact regPrimIntEq fname t pv tag regs hd h
    | inr h => exact regPrimInt64Eq fname t pv tag regs hd h
  · intro fname t pv tag regs hd hk
    cases hk with
    | inl h => exact regPrimUintEq fname t pv tag regs hd h
    | inr h => exact regPrimUint64Eq fname t pv tag regs hd h

/-- C1 witness: the dispatch parts at concrete inputs — the alias-of-int
type registers exactly like int (same shape), the bool branch with the
unparsable default "foo" fails with invalid-default, the string branch
binds the raw default, a uintptr-kind field is unsupported. -/
theorem claim_C1_witness :
    resultShape (registerFlagByPrimitive "D"
      (GoValue.prim aliasIntT (PrimVal.vi 7)) (FlagTag.mk "i" "-10" "u" false) []) =
    resultShape (registerFlagByPrimitive "D"
      (GoValue.prim intT (PrimVal.vi 0)) (FlagTag.mk "i" "-10" "u" false) []) ∧
    registerFlagByPrimitive "V" (GoValue.prim boolT (PrimVal.vb false))
      (FlagTag.mk "b2" "foo" "u" false) [] =
      ([], Except.error (ConfigError.invalidDefault "V" "b2" "invalid syntax")) ∧
    registerFlagByPrimitive "S" (GoValue.prim stringT (PrimVal.vs "old"))
      (FlagTag.mk "s" "hello world" "u" false) [] =
      ([FlagReg.mk "s" "hello world" "u"],
       Except.ok (GoValue.prim stringT (PrimVal.vs "hello world"))) ∧
    registerFlagByPrimitive "Invalid" (GoValue.prim uintptrT (PrimVal.vu 0))
      (FlagTag.mk "x" "" "u" false) [] =
      ([], Except.error (ConfigError.unsupportedType "Invalid" "x")) := by
  refine ⟨?_, ?_, ?_, ?_⟩
  · exact claim_C1_primitive_dispatch.1 "D" (FlagTag.mk "i" "-10" "u" false) []
      (PrimVal.vi 7) (PrimVal.vi 0) "aliasInt" "int" PrimKind.kInt false none none
  · have h := claim_C1_primitive_dispatch.2.2.1 "V" boolT (PrimVal.vb false)
      (FlagTag.mk "b2" "foo" "u" false) [] rfl rfl
    rw [h]; rfl
  · have h := claim_C1_primitive_dispatch.2.1 "S" stringT (PrimVal.vs "old")
      (FlagTag.mk "s" "hello world" "u" false) [] rfl rfl
    rw [h]; rfl
  · have h := claim_C1_primitive_dispatch.2.2.2.2.2.2.1 "Invalid" uintptrT (PrimVal.vu 0)
      (FlagTag.mk "x" "" "u" false) [] rfl rfl
    rw [h]

/-- C10: registration writes the parsed default through the field before
any command-line parsing — untagged non-struct fields (primitive, pointer
or interface typed) are left unchanged by the walk; every successful
primitive registration returns a leaf holding exactly the value parsed
from the tag's default text under the dispatched kind (raw text for
string, the parsed duration for the duration type, and so on); and a
closed Configure run over a struct with a tagged string field, a tagged
pointer-to-duration field and an untagged int field ends with the string
field holding the default text, the pointee holding the parsed duration
and the untagged field untouched. -/
theorem claim_C10_defaults_written :
    (∀ (n optStr : String) (ex : Bool) (t : PrimType) (pv : PrimVal) (regs : List FlagReg),
      processField (GoField.mk n "" optStr ex (GoValue.prim t pv)) regs =
        (regs, Except.ok (GoField.mk n "" optStr ex (GoValue.prim t pv)))) ∧
    (∀ (n optStr : String) (ex : Bool) (p : Option GoValue) (regs : List FlagReg),
      processField (GoField.mk n "" optStr ex (GoValue.ptr p)) regs =
        (regs, Except.ok (GoField.mk n "" optStr ex (GoValue.ptr p)))) ∧
    (∀ (n optStr : String) (ex : Bool) (c : Option GoValue) (regs : List FlagReg),
      processField (GoField.mk n "" optStr ex (GoValue.iface c)) regs =
        (regs, Except.ok (GoField.mk n "" optStr ex (GoValue.iface c)))) ∧
    (∀ (fname : String) (t : PrimType) (pv : PrimVal) (tag : FlagTag)
        (regs regs2 : List FlagReg) (v2 : GoValue),
      registerFlagByPrimitive fname (GoValue.prim t pv) tag regs = (regs2, Except.ok v2) →
      (t.isDuration = true ∧ ∃ d, parseDuration tag.DefaultValue = Except.ok d ∧
          v2 = GoValue.prim t (PrimVal.vi d)) ∨
      (t.isDuration = false ∧ t.kind = PrimKind.kString ∧
          v2 = GoValue.prim t (PrimVal.vs tag.DefaultValue)) ∨
      (t.isDuration = false ∧ t.kind = PrimKind.kBool ∧
          ∃ b, parseBool tag.DefaultValue = Except.ok b ∧ v2 = GoValue.prim t (PrimVal.vb b)) ∨
      (t.isDuration = false ∧ t.kind = PrimKind.kFloat64 ∧
          ∃ f, parseFloatGo tag.DefaultValue = Except.ok f ∧ v2 = GoValue.prim t (PrimVal.vf f)) ∨
      (t.isDuration = false ∧ (t.kind = PrimKind.kInt ∨ t.kind = PrimKind.kInt64) ∧
          ∃ n, parseIntBase0 tag.DefaultValue 64 = Except.ok n ∧
            v2 = GoValue.prim t (PrimVal.vi n)) ∨
      (t.isDuration = false ∧ (t.kind = PrimKind.kUint ∨ t.kind = PrimKind.kUint64) ∧
          ∃ n, parseUintBase0 tag.DefaultValue 64 = Except.ok n ∧
            v2 = GoValue.prim t (PrimVal.vu n))) ∧
    Configure (some (GoValue.ptr (some (GoValue.strct
        [GoField.mk "Greeting" "greet,Hello,The greeting." "" true
          (GoValue.prim stringT (PrimVal.vs "")),
         GoField.mk "S" "s,1s,Sleep time." "" true
          (GoValue.ptr (some (GoValue.prim durationT (PrimVal.vi 0)))),
         GoField.mk "Untouched" "" "" true (GoValue.prim intT (PrimVal.vi 99))])))) [] =
      ([FlagReg.mk "greet" "Hello" "The greeting.", FlagReg.mk "s" "1s" "Sleep time."],
       GoResult.ok (GoValue.strct
        [GoField.mk "Greeting" "greet,Hello,The greeting." "" true
          (GoValue.prim stringT (PrimVal.vs "Hello")),
         GoField.mk "S" "s,1s,Sleep time." "" true
          (GoValue.ptr (some (GoValue.prim durationT (PrimVal.vi 1000000000)))),
         GoField.mk "Untouched" "" "" true (GoValue.prim intT (PrimVal.vi 99))])) := by
  refine ⟨fun n o e t pv regs => rfl, fun n o e p regs => rfl, fun n o e c regs => rfl, ?_, rfl⟩
  intro fname t pv tag regs regs2 v2 h
  rcases t with ⟨nm, k, d, fv⟩
  cases d with
  | true =>
    rw [regPrimDurationEq fname (PrimType.mk nm k true fv) pv tag regs rfl] at h
    cases hpd : parseDuration tag.DefaultValue with
    | error c => rw [hpd] at h; simp at h
    | ok dd =>
      rw [hpd] at h
      dsimp only at h
      simp only [Prod.mk.injEq, Except.ok.injEq] at h
      exact Or.inl ⟨rfl, dd, rfl, h.2.symm⟩
  | false =>
    cases k with
    | kString =>
      rw [regPrimStringEq fname (PrimType.mk nm PrimKind.kString false fv) pv tag regs rfl rfl] at h
      simp only [Prod.mk.injEq, Except.ok.injEq] at h
      exact Or.inr (Or.inl ⟨rfl, rfl, h.2.symm⟩)
    | kBool =>
      rw [regPrimBoolEq fname (PrimType.mk nm PrimKind.kBool false fv) pv tag regs rfl rfl] at h
      cases hp : parseBool tag.DefaultValue with
      | error c => rw [hp] at h; simp at h
      | ok b =>
        rw [hp] at h
        dsimp only at h
        simp only [Prod.mk.injEq, Except.ok.injEq] at h
        exact Or.inr (Or.inr (Or.inl ⟨rfl, rfl, b, rfl, h.2.symm⟩))
    | kFloat64 =>
      rw [regPrimFloatEq fname (PrimType.mk nm PrimKind.kFloat64 false fv) pv tag regs rfl rfl] at h
      cases hp : parseFloatGo tag.DefaultValue with
      | error c => rw [hp] at h; simp at h
      | ok f =>
        rw [hp] at h
        dsimp only at h
        simp only [Prod.mk.injEq, Except.ok.injEq] at h
        exact Or.inr (Or.inr (Or.inr (Or.inl ⟨rfl, rfl, f, rfl, h.2.symm⟩)))
    | kInt =>
      rw [regPrimIntEq fname (PrimType.mk nm PrimKind.kInt false fv) pv tag regs rfl rfl] at h
      cases hp : parseIntBase0 tag.DefaultValue 64 with
      | error c => rw [hp] at h; simp at h
      | ok n =>
        rw [hp] at h
        dsimp only at h
        simp only [Prod.mk.injEq, Except.ok.injEq] at h
        exact Or.inr (Or.inr (Or.inr (Or.inr (Or.inl ⟨rfl, Or.inl rfl, n, rfl, h.2.symm⟩))))
    | kInt64 =>
      rw [regPrimInt64Eq fname (PrimType.mk nm PrimKind.kInt64 false fv) pv tag regs rfl rfl] at h
      cases hp : parseIntBase0 tag.DefaultValue 64 with
      | error c => rw [hp] at h; simp at h
      | ok n =>
        rw [hp] at h
        dsimp only at h
        simp only [Prod.mk.injEq, Except.ok.injEq] at h
        exact Or.inr (Or.inr (Or.inr (Or.inr (Or.inl ⟨rfl, Or.inr rfl, n, rfl, h.2.symm⟩))))
    | kUint =>
      rw [regPrimUintEq fname (PrimType.mk nm PrimKind.kUint false fv) pv tag regs rfl rfl] at h
      cases hp : parseUintBase0 tag.DefaultValue 64 with
      | error c => rw [hp] at h; simp at h
      | ok n =>
        rw [hp] at h
        dsimp only at h
        simp only [Prod.mk.injEq, Except.ok.injEq] at h
        exact Or.inr (Or.inr (Or.inr (Or.inr (Or.inr ⟨rfl, Or.inl rfl, n, rfl, h.2.symm⟩))))
    | kUint64 =>
      rw [regPrimUint64Eq fname (PrimType.mk nm PrimKind.kUint64 false fv) pv tag regs rfl rfl] at h
      cases hp : parseUintBase0 tag.DefaultValue 64 with
      | error c => rw [hp] at h; simp at h
      | ok n =>
        rw [hp] at h
        dsimp only at h
        simp only [Prod.mk.injEq, Except.ok.injEq] at h
        exact Or.inr (Or.inr (Or.inr (Or.inr (Or.inr ⟨rfl, Or.inr rfl, n, rfl, h.2.symm⟩))))
    | kOther =>
      rw [regPrimOtherEq fname (PrimType.mk nm PrimKind.kOther false fv) pv tag regs rfl rfl] at h
      simp at h

/-- C10 witness: the successful duration registration with default "1s"
leaves the leaf holding the parsed duration (1000000000 ns), derived by
applying the inversion part of the claim at this concrete call; the
untagged int field is returned unchanged by the walk. -/
theorem claim_C10_witness :
    registerFlagByPrimitive "S" (GoValue.prim durationT (PrimVal.vi 0))
        (FlagTag.mk "s" "1s" "u" false) [] =
      ([FlagReg.mk "s" "1s" "u"],
       Except.ok (GoValue.prim durationT (PrimVal.vi 1000000000))) ∧
    (durationT.isDuration = true ∧ ∃ d, parseDuration "1s" = Except.ok d ∧
        (GoValue.prim durationT (PrimVal.vi 1000000000) : GoValue) =
          GoValue.prim durationT (PrimVal.vi d)) ∧
    processField (GoField.mk "Untouched" "" "" true (GoValue.prim intT (PrimVal.vi 99))) [] =
      ([], Except.ok (GoField.mk "Untouched" "" "" true (GoValue.prim intT (PrimVal.vi 99)))) := by
  refine ⟨rfl, ?_, claim_C10_defaults_written.1 "Untouched" "" true intT (PrimVal.vi 99) []⟩
  have h := claim_C10_defaults_written.2.2.2.1 "S" durationT (PrimVal.vi 0)
    (FlagTag.mk "s" "1s" "u" false) [] [FlagReg.mk "s" "1s" "u"]
    (GoValue.prim durationT (PrimVal.vi 1000000000)) rfl
  rcases h with h | ⟨hf, h⟩ | ⟨hf, h⟩ | ⟨hf, h⟩ | ⟨hf, h⟩ | ⟨hf, h⟩
  · exact h
  · exact absurd hf (by decide)
  · exact absurd hf (by decide)
  · exact absurd hf (by decide)
  · exact absurd hf (by decide)
  · exact absurd hf (by decide)

end Flagtag
